import Mathlib

/-!
Verification development for the `cli-generator` compiler
(`src/lexer.rs`, `src/parse.rs`, `src/semantic.rs`, `src/types.rs`,
`src/generate/cpp.rs`).

The Rust sources are shallowly embedded: each Rust function becomes a Lean
function of the same name (camel-cased), translated clause by clause from the
source.  Rust `unreachable!()` / `.unwrap()` panics are modelled by an explicit
`panicked` outcome; loops whose termination is not structural take a fuel
argument with an explicit `fuelOut` outcome, so a theorem can never mistake
fuel exhaustion for a genuine result.  Diagnostics rendered through the
external `chic` crate are kept structured (label, spans, messages, help),
since the rendering itself lives outside this repository.
-/

namespace CliGen

/-- Byte-offset span, as produced by `logos::Span` (`start..end`). `end` is a
Lean keyword, so the field is called `stop`. -/
structure Span where
  start : Nat
  stop : Nat
  deriving DecidableEq, Repr

/-- Structured diagnostic: the arguments the Rust code passes to
`chic::Error::new(label).error(_, span, source, msg)[.help(h)]` and, for
two-location reports, the `.info(info_span, info_msg)` part.  The textual
rendering done by the `chic` crate is external to the repository and is left
abstract. -/
structure Diag where
  label : String
  span : Span
  msg : String
  help : Option String
  info : Option (Span × String)
  deriving DecidableEq, Repr

/-- Outcome of an embedded Rust function: success, an error `Result::Err`,
a Rust panic (`unreachable!()` or `.unwrap()` on `None`), or fuel exhaustion
of the embedding (never produced by runs that model a terminating Rust
execution). -/
inductive Res (α : Type) where
  | ok (a : α)
  | err (d : Diag)
  | panicked
  | fuelOut
  deriving DecidableEq, Repr

instance : Monad Res where
  pure := Res.ok
  bind r f := match r with
    | .ok a => f a
    | .err d => .err d
    | .panicked => .panicked
    | .fuelOut => .fuelOut

/-! ## Data model (`src/types.rs`) -/

/-- `AttributeType` from `types.rs`. -/
inductive AttributeType where
  | short
  | long
  | alias
  | flatten
  | main
  | subcommand
  deriving DecidableEq, Repr

/-- `Attribute` from `types.rs`. -/
structure Attribute where
  ty : AttributeType
  value : Option String
  span : Span
  deriving DecidableEq, Repr

/-- `FieldType` from `types.rs`.  `Struct(String)` is the name-based struct
reference. -/
inductive FieldType where
  | string
  | i16
  | u16
  | i32
  | u32
  | i64
  | u64
  | f32
  | f64
  | bool
  | vec (inner : FieldType)
  | optional (inner : FieldType)
  | strukt (name : String)
  deriving DecidableEq, Repr

/-- `Field` from `types.rs`. -/
structure Field where
  name : String
  attributes : List Attribute
  ty : FieldType
  name_span : Span
  type_span : Span
  deriving DecidableEq, Repr

/-- `Struct` from `types.rs`. -/
structure Struct where
  attributes : List Attribute
  fields : List Field
  name : String
  name_span : Span
  deriving DecidableEq, Repr

/-- `Spec` from `types.rs` (the source text is carried separately where
needed). -/
structure Spec where
  structs : List Struct
  source : String
  deriving DecidableEq, Repr

/-- Rust `value.replace('_', "-")`: every underscore becomes a hyphen. -/
def hyphenate (s : String) : String :=
  String.mk (s.data.map fun c => if c = '_' then '-' else c)

/-- `Field::short_value`: the first `Short` attribute's value, with `_`
replaced by `-`. -/
def Field.short_value (f : Field) : Option String :=
  (f.attributes.findSome? fun attr =>
    if attr.ty = AttributeType.short then some attr.value else none).join.map hyphenate

/-- `Field.long_value`: the first `Long` attribute's value, with `_`
replaced by `-`. -/
def Field.long_value (f : Field) : Option String :=
  (f.attributes.findSome? fun attr =>
    if attr.ty = AttributeType.long then some attr.value else none).join.map hyphenate

/-! ## Lexer (`src/lexer.rs`)

The `logos`-derived lexer: fixed `#[token(...)]` literals, the identifier
regex `[a-zA-Z_]+`, skipped whitespace `[ \t\n\f]+`, maximal munch with fixed
literals winning length ties (logos gives `#[token]` rules higher priority
than the regex). An unmatched byte yields an error item spanning that byte. -/

/-- The token kinds of `enum Tokens`. -/
inductive Tokens where
  | lBrace
  | rBrace
  | pound
  | colon
  | comma
  | lAngleBracket
  | rAngleBracket
  | lSquareBracket
  | rSquareBracket
  | equals
  | kwStruct
  | kwShort
  | kwLong
  | kwAlias
  | kwFlatten
  | kwMain
  | kwSubCommand
  | tyString
  | tyI16
  | tyU16
  | tyI32
  | tyU32
  | tyI64
  | tyU64
  | tyF32
  | tyF64
  | tyVec
  | tyOptional
  | tyBool
  | identifier
  deriving DecidableEq, Repr

/-- `Tokens::attribute_tokens`. -/
def Tokens.attributeTokens : List Tokens :=
  [.kwShort, .kwLong, .kwAlias, .equals, .comma, .kwFlatten, .kwMain, .kwSubCommand]

/-- `Tokens::type_tokens`. -/
def Tokens.typeTokens : List Tokens :=
  [.tyString, .tyI16, .tyU16, .tyI32, .tyU32, .tyI64, .tyU64, .tyF32, .tyF64,
   .tyVec, .tyOptional, .tyBool, .identifier]

/-- `Tokens::as_attribute_type`; the `_ => unreachable!()` arm is `none`. -/
def Tokens.asAttributeType : Tokens → Option AttributeType
  | .kwShort => some .short
  | .kwLong => some .long
  | .kwAlias => some .alias
  | .kwFlatten => some .flatten
  | .kwMain => some .main
  | .kwSubCommand => some .subcommand
  | _ => none

/-- `Tokens::as_field_type`; note the `i16` placeholders inside `Vec` and
`Optional` and the empty name inside `Struct`, exactly as in the source.  The
`_ => unreachable!()` arm is `none`. -/
def Tokens.asFieldType : Tokens → Option FieldType
  | .tyString => some .string
  | .tyI16 => some .i16
  | .tyU16 => some .u16
  | .tyI32 => some .i32
  | .tyU32 => some .u32
  | .tyI64 => some .i64
  | .tyU64 => some .u64
  | .tyF32 => some .f32
  | .tyF64 => some .f64
  | .tyBool => some .bool
  | .tyVec => some (.vec .i16)
  | .tyOptional => some (.optional .i16)
  | .identifier => some (.strukt "")
  | _ => none

/-- `Tokens::as_token_literal`. -/
def Tokens.asTokenLiteral : Tokens → String
  | .lBrace => "\x7b"
  | .rBrace => "\x7d"
  | .pound => "#"
  | .colon => ":"
  | .comma => ","
  | .lAngleBracket => "<"
  | .rAngleBracket => ">"
  | .lSquareBracket => "["
  | .rSquareBracket => "]"
  | .equals => "="
  | .kwStruct => "struct"
  | .kwShort => "short"
  | .kwLong => "long"
  | .kwAlias => "alias"
  | .kwFlatten => "flatten"
  | .kwMain => "main"
  | .kwSubCommand => "subcommand"
  | .tyString => "string"
  | .tyI16 => "i16"
  | .tyU16 => "u16"
  | .tyI32 => "i32"
  | .tyU32 => "u32"
  | .tyI64 => "i64"
  | .tyU64 => "u64"
  | .tyF32 => "f32"
  | .tyF64 => "f64"
  | .tyVec => "Vec"
  | .tyOptional => "Optional"
  | .tyBool => "bool"
  | .identifier => "regex: [a-z,A-Z_]+"

/-- All fixed `#[token("...")]` literals of the lexer, with their tokens. -/
def fixedTokens : List (String × Tokens) :=
  [("\x7b", .lBrace), ("\x7d", .rBrace), ("#", .pound), (":", .colon),
   (",", .comma), ("<", .lAngleBracket), (">", .rAngleBracket),
   ("[", .lSquareBracket), ("]", .rSquareBracket), ("=", .equals),
   ("struct", .kwStruct), ("short", .kwShort), ("long", .kwLong),
   ("alias", .kwAlias), ("flatten", .kwFlatten), ("main", .kwMain),
   ("subcommand", .kwSubCommand), ("string", .tyString), ("i16", .tyI16),
   ("u16", .tyU16), ("i32", .tyI32), ("u32", .tyU32), ("i64", .tyI64),
   ("u64", .tyU64), ("f32", .tyF32), ("f64", .tyF64), ("Vec", .tyVec),
   ("Optional", .tyOptional), ("bool", .tyBool)]

/-- Whitespace skipped by `#[logos(skip r"[ \t\n\f]+")]`. -/
def isLexWs (c : Char) : Bool :=
  c == ' ' || c == '\t' || c == '\n' || c == '\x0c'

/-- A character matched by the identifier regex `[a-zA-Z_]+`. -/
def isIdentChar (c : Char) : Bool :=
  c.isAlpha || c == '_'

/-- Length of the longest identifier-regex match at the front of `l`. -/
def identLen (l : List Char) : Nat :=
  l.takeWhile isIdentChar |>.length

/-- Longest fixed-literal match at the front of `l` (first entry wins ties;
the fixed literals are pairwise distinct so ties cannot occur). -/
def bestFixed (l : List Char) : Option (Nat × Tokens) :=
  fixedTokens.foldl
    (fun acc p =>
      if p.1.data.isPrefixOf l then
        match acc with
        | none => some (p.1.length, p.2)
        | some a => if p.1.length > a.1 then some (p.1.length, p.2) else acc
      else acc)
    none

/-- Payload of one lexed item: `Ok(token)` or the `Err(())` a logos lexer
yields on an unknown byte. -/
inductive LexItem where
  | tk (t : Tokens)
  | lexErr
  deriving DecidableEq, Repr

/-- One lexed item with its span and the matched source slice. -/
structure LTok where
  tok : LexItem
  span : Span
  text : String
  deriving DecidableEq, Repr

/-- The lexer: maximal munch over `fixedTokens` and the identifier regex,
fixed literals winning length ties; whitespace skipped; an unmatched
character becomes an `Err` item of width one.  Every step consumes at least
one character, so the structural fuel `length + 1` supplied by `tokenize`
never runs out. -/
def tokenizeGo : Nat → List Char → Nat → List LTok
  | 0, _, _ => []
  | _ + 1, [], _ => []
  | fuel + 1, c :: rest, pos =>
    if isLexWs c then tokenizeGo fuel rest (pos + 1)
    else
      let idn := identLen (c :: rest)
      let consume : Nat → LexItem → List LTok := fun n t =>
        ⟨t, ⟨pos, pos + n⟩, String.mk ((c :: rest).take n)⟩ ::
          tokenizeGo fuel (rest.drop (n - 1)) (pos + n)
      match bestFixed (c :: rest) with
      | some (n, t) =>
        if idn > n then consume idn (.tk .identifier)
        else consume n (.tk t)
      | none =>
        if idn > 0 then consume idn (.tk .identifier)
        else consume 1 .lexErr

/-- Tokenize a source string from position `0`. -/
def tokenize (src : String) : List LTok :=
  tokenizeGo (src.data.length + 1) src.data 0

/-! ## Parser (`src/parse.rs`)

The recursive-descent parser.  The peekable lexer is a `List LTok` threaded
through every function; `peek` looks at the head, `next` also drops it.
The three `_ => unreachable!()` arms (top level, after a top-level attribute
block, and inside a struct body) are modelled by `Res.panicked`. -/

/-- `ParserToken`. -/
structure PTok where
  token : Tokens
  span : Span
  text : String
  deriving DecidableEq, Repr

/-- `Parser::make_end_of_file_chic_error`: blames the last byte of the
right-trimmed source.  The `- 1` is Rust `usize` arithmetic; Lean's `Nat`
subtraction saturates the (panicking) empty-source corner, which no theorem
relies on. -/
def makeEndOfFileChicError (src : String) : Diag :=
  ⟨"Parser error", ⟨src.trimRight.length - 1, src.trimRight.length⟩,
   "Unexpected end of file", none, none⟩

/-- `Parser::make_chic_error_for_lexer_error`. -/
def makeChicErrorForLexerError (span : Span) : Diag :=
  ⟨"Lexer error", span, "Unknown token", none, none⟩

/-- `Parser::make_chic_error_for_parse_error`. -/
def makeChicErrorForParseError (span : Span) (msg : String) (help : Option String) : Diag :=
  ⟨"Parse error", span, msg, help, none⟩

/-- `Parser::ensure_token_any_of`. -/
def ensureTokenAnyOf (t : PTok) (expected : List Tokens) : Res Unit :=
  if expected.contains t.token then .ok ()
  else .err ⟨"Parser error", t.span, "Unexpected token",
    some ("Tokens can be any of: " ++
      String.intercalate ", " (expected.map Tokens.asTokenLiteral)), none⟩

/-- `Parser::peek_token`. -/
def peekToken (ts : List LTok) : Option (Res PTok) :=
  match ts with
  | [] => none
  | t :: _ =>
    match t.tok with
    | .tk tk => some (.ok ⟨tk, t.span, t.text⟩)
    | .lexErr => some (.err (makeChicErrorForLexerError t.span))

/-- `Parser::ensure_next_token_any_of`: take the next token, requiring it to
be one of `expected`; end of input is the end-of-file error. -/
def ensureNextTokenAnyOf (src : String) (ts : List LTok) (expected : List Tokens) :
    Res (PTok × List LTok) :=
  match peekToken ts with
  | none => .err (makeEndOfFileChicError src)
  | some r => do
    let t ← r
    let _ ← ensureTokenAnyOf t expected
    pure (t, ts.tail)

/-- `Parser::ensure_next_token`. -/
def ensureNextToken (src : String) (ts : List LTok) (token : Tokens) :
    Res (PTok × List LTok) :=
  ensureNextTokenAnyOf src ts [token]

/-- Loop body of `Parser::parse_attributes`; `startSpan` is the span of the
opening `#`, used by the empty-attribute-list error. -/
def parseAttributesGo (src : String) :
    Nat → List LTok → Span → List Attribute → Res (List Attribute × List LTok)
  | 0, _, _, _ => .fuelOut
  | fuel + 1, ts, startSpan, acc =>
    match peekToken ts with
    | none => .err (makeEndOfFileChicError src)
    | some r => do
      let t ← r
      let ts1 := ts.tail
      if t.token = .rSquareBracket then
        if acc.isEmpty then
          .err (makeChicErrorForParseError startSpan "Attributes cannot be empty" none)
        else .ok (acc, ts1)
      else if t.token = .comma then
        parseAttributesGo src fuel ts1 startSpan acc
      else do
        let _ ← ensureTokenAnyOf t Tokens.attributeTokens
        match t.token.asAttributeType with
        | none => Res.panicked
        | some ty => do
          let (value, ts2) ←
            match ty with
            | .short | .long =>
              match peekToken ts1 with
              | none => Res.err (makeEndOfFileChicError src)
              | some r2 => do
                let t2 ← r2
                if t2.token = .equals then do
                  let (idTok, ts3) ← ensureNextToken src ts1.tail .identifier
                  pure (some idTok.text, ts3)
                else
                  pure ((none : Option String), ts1)
            | .alias => do
              let (_, ts2) ← ensureNextToken src ts1 .equals
              let (idTok, ts3) ← ensureNextToken src ts2 .identifier
              pure (some idTok.text, ts3)
            | _ => pure ((none : Option String), ts1)
          parseAttributesGo src fuel ts2 startSpan (acc ++ [⟨ty, value, t.span⟩])

/-- `Parser::parse_attributes`. -/
def parseAttributes (src : String) (ts : List LTok) : Res (List Attribute × List LTok) := do
  let (poundTok, ts1) ← ensureNextToken src ts .pound
  let (_, ts2) ← ensureNextToken src ts1 .lSquareBracket
  parseAttributesGo src (ts2.length + 1) ts2 poundTok.span []

/-- `Parser::parse_field`. Note that for `Vec<T>`/`Optional<T>` the field's
`type_span` is the span of the inner type token (`ty_token = inner_ty_token`),
i.e. the reference's own span. -/
def parseField (src : String) (ts : List LTok) : Res (Field × List LTok) := do
  let (idTok, ts1) ← ensureNextToken src ts .identifier
  let name := idTok.text
  let (_, ts2) ← ensureNextToken src ts1 .colon
  let (tyTok, ts3) ← ensureNextTokenAnyOf src ts2 Tokens.typeTokens
  match tyTok.token.asFieldType with
  | none => Res.panicked
  | some ty0 => do
    let (ty, tyTokF, ts6) ←
      match ty0 with
      | .vec _ | .optional _ => do
        let (_, ts4) ← ensureNextToken src ts3 .lAngleBracket
        let (innerTok, ts5) ← ensureNextTokenAnyOf src ts4 Tokens.typeTokens
        let (_, ts6) ← ensureNextToken src ts5 .rAngleBracket
        match innerTok.token.asFieldType with
        | none => Res.panicked
        | some innerTy0 =>
          let innerTy :=
            match innerTy0 with
            | .strukt s => FieldType.strukt (s ++ innerTok.text)
            | t => t
          let ty :=
            match ty0 with
            | .vec _ => FieldType.vec innerTy
            | _ => FieldType.optional innerTy
          pure (ty, innerTok, ts6)
      | .strukt s => pure (FieldType.strukt (s ++ tyTok.text), tyTok, ts3)
      | t => pure (t, tyTok, ts3)
    let ts7 ←
      match peekToken ts6 with
      | none => pure ts6
      | some r => do
        let t ← r
        if t.token = .comma then pure ts6.tail else pure ts6
    pure (⟨name, [], ty, idTok.span, tyTokF.span⟩, ts7)

/-- The `#[short]`/`#[long]` value derivation performed inline in
`parse_struct` (lines 275-285): a `Short` without an explicit value gets the
field name's first character (`.unwrap()` panics on an empty name), a `Long`
without one gets the full field name. -/
def deriveAttrValues (name : String) (attrs : List Attribute) : Res (List Attribute) :=
  attrs.mapM fun a =>
    if a.ty = .short ∧ a.value = none then
      match name.data with
      | [] => Res.panicked
      | c :: _ => Res.ok { a with value := some (String.mk [c]) }
    else if a.ty = .long ∧ a.value = none then
      Res.ok { a with value := some name }
    else Res.ok a

/-- Field loop of `Parser::parse_struct`; the `_ => unreachable!()` arm for a
body token that is neither `#`, an identifier, nor `}` is a panic. -/
def parseStructGo (src : String) :
    Nat → List LTok → List Field → Res (List Field × List LTok)
  | 0, _, _ => .fuelOut
  | fuel + 1, ts, fields =>
    match peekToken ts with
    | none => .ok (fields, ts)
    | some r => do
      let t ← r
      if t.token = .rBrace then .ok (fields, ts)
      else
        match t.token with
        | .pound => do
          let (attrs, ts1) ← parseAttributes src ts
          let (field, ts2) ← parseField src ts1
          let attrs' ← deriveAttrValues field.name attrs
          parseStructGo src fuel ts2 (fields ++ [{ field with attributes := attrs' }])
        | .identifier => do
          let (field, ts1) ← parseField src ts
          parseStructGo src fuel ts1 (fields ++ [field])
        | _ => Res.panicked

/-- `Parser::parse_struct`. -/
def parseStruct (src : String) (ts : List LTok) : Res (Struct × List LTok) := do
  let (_, ts1) ← ensureNextToken src ts .kwStruct
  let (idTok, ts2) ← ensureNextToken src ts1 .identifier
  let (_, ts3) ← ensureNextToken src ts2 .lBrace
  let (fields, ts4) ← parseStructGo src (ts3.length + 1) ts3 []
  let (_, ts5) ← ensureNextToken src ts4 .rBrace
  pure (⟨[], fields, idTok.text, idTok.span⟩, ts5)

/-- Top-level loop of `Parser::parse`; the two `_ => unreachable!()` arms
(a top-level token that is neither `#` nor `struct`, and a non-`struct`
token after a top-level attribute block) are panics. -/
def parseGo (src : String) : Nat → List LTok → List Struct → Res (List Struct)
  | 0, _, _ => .fuelOut
  | fuel + 1, ts, acc =>
    match peekToken ts with
    | none => .ok acc
    | some r => do
      let t ← r
      match t.token with
      | .pound => do
        let (attrs, ts1) ← parseAttributes src ts
        match peekToken ts1 with
        | none => Res.err (makeEndOfFileChicError src)
        | some r2 => do
          let t2 ← r2
          match t2.token with
          | .kwStruct => do
            let (strukt, ts2) ← parseStruct src ts1
            parseGo src fuel ts2 (acc ++ [{ strukt with attributes := strukt.attributes ++ attrs }])
          | _ => Res.panicked
      | .kwStruct => do
        let (strukt, ts1) ← parseStruct src ts
        parseGo src fuel ts1 (acc ++ [strukt])
      | _ => Res.panicked

/-- `Parser::parse`: tokenize and run the top-level loop. -/
def parse (src : String) : Res Spec := do
  let ts := tokenize src
  let structs ← parseGo src (ts.length + 1) ts []
  pure ⟨structs, src⟩

/-! ## Semantic analyzer (`src/semantic.rs`)

`HashMap` values are embedded as association lists with insertion at the
front, so a lookup finds the most recent insertion — the `HashMap` overwrite
semantics.  The source-excerpt context computation (`get_context` etc.) only
feeds the external `chic` rendering and is abstracted away; a diagnostic
keeps the span and message arguments the Rust code passes. -/

/-- First-match association lookup (front insertion makes it behave like
`HashMap` insert-overwrite). -/
def assocFind {α : Type} (m : List (String × α)) (k : String) : Option α :=
  (m.find? fun p => p.1 = k).map fun p => p.2

/-- `check_for_multiple_struct_definitions`: build the name-to-struct table,
failing on a redefinition. -/
def checkForMultipleStructDefinitions (structs : List Struct) :
    Res (List (String × Struct)) :=
  structs.foldlM
    (fun acc (strukt : Struct) =>
      match assocFind acc strukt.name with
      | some original =>
        Res.err ⟨"Multiple type definition", strukt.name_span, "Redefinition of type",
          none, some (original.name_span, "Has already been defined here")⟩
      | none => Res.ok ((strukt.name, strukt) :: acc))
    []

/-- `check_for_multiple_field_definitions`. -/
def checkForMultipleFieldDefinitions (fields : List Field) : Res Unit := do
  let _ ← fields.foldlM
    (fun (acc : List (String × Field)) (field : Field) =>
      match assocFind acc field.name with
      | some original =>
        Res.err ⟨"Multiple field definition", field.name_span, "Redefinition of field",
          none, some (original.name_span, "Has already been defined here")⟩
      | none => Res.ok ((field.name, field) :: acc))
    ([] : List (String × Field))
  pure ()

/-- The per-field body of `check_for_undefined_types`: a bare `Struct`
reference and a `Struct` reference inside `Vec` must be in the table; every
other type shape — including `Optional(_)` — falls through the `_ => {}` arm
unchecked.  `Vec(Vec(_))` is the `unreachable!()` panic. -/
def checkFieldUndefinedType (contains : String → Bool) (field : Field) : Res Unit :=
  match field.ty with
  | .vec inner =>
    match inner with
    | .vec _ => Res.panicked
    | .strukt name =>
      if contains name then Res.ok ()
      else Res.err ⟨"Semantic error", field.type_span, "Undefined type", none, none⟩
    | _ => Res.ok ()
  | .strukt name =>
    if contains name then Res.ok ()
    else Res.err ⟨"Semantic error", field.type_span, "Undefined type", none, none⟩
  | _ => Res.ok ()

/-- `check_for_undefined_types`: the per-field check over all fields, first
failure aborting. -/
def checkForUndefinedTypes (contains : String → Bool) : List Field → Res Unit
  | [] => Res.ok ()
  | field :: rest => do
    let _ ← checkFieldUndefinedType contains field
    checkForUndefinedTypes contains rest

/-- Help text listing the allowed struct attributes, as formatted by
`check_struct_attributes`. -/
def allowedStructAttrsHelp : String :=
  "Allowed attributes: main, subcommand"

/-- Help text listing the allowed field attributes, as formatted by
`check_field_attributes`. -/
def allowedFieldAttrsHelp : String :=
  "Valid field attributes are: short, long, alias, flatten"

/-- `check_struct_attributes`: only `Main`/`SubCommand` allowed, and not
both together. -/
def checkStructAttributes (strukt : Struct) : Res Unit := do
  let st ← strukt.attributes.foldlM
    (fun (st : Bool × Span × Bool × Span) attr =>
      match st with
      | (hasMain, mainSpan, hasSub, subSpan) =>
        match attr.ty with
        | .short | .long | .alias | .flatten =>
          Res.err ⟨"Semantic error", attr.span, "Invalid attribute",
            some allowedStructAttrsHelp, none⟩
        | .main => Res.ok (true, attr.span, hasSub, subSpan)
        | .subcommand => Res.ok (hasMain, mainSpan, true, attr.span))
    (false, ⟨0, 0⟩, false, ⟨0, 0⟩)
  match st with
  | (hasMain, mainSpan, hasSub, subSpan) =>
    if hasMain ∧ hasSub then
      Res.err ⟨"Semantic error",
        ⟨min mainSpan.start subSpan.start, max mainSpan.stop subSpan.stop⟩,
        "Invalid attribute combination",
        some "Only main or subcommand attributes are allowed", none⟩
    else Res.ok ()

/-- The three collision maps of `check_field_attributes`. -/
structure AttrMaps where
  shorts : List (String × Field)
  longs : List (String × Field)
  aliases : List (String × Field)
  deriving DecidableEq, Repr

/-- Attribute loop of `check_field_attributes` for one field.  Note the
verbatim `&&` conditions on the `Long` and `Alias` arms: a `Long` collides
only when its value is already in *both* the longs map and the aliases map,
and symmetrically for `Alias`. `attribute.value.unwrap()` on a missing value
is a panic, and `Flatten` on `Vec(Vec(_))` is the `unreachable!()` panic. -/
def checkAttrsOfField (m : AttrMaps) (field : Field) :
    List Attribute → Res AttrMaps
  | [] => Res.ok m
  | attr :: rest =>
    match attr.ty with
    | .short =>
      match attr.value with
      | none => Res.panicked
      | some value =>
        match assocFind m.shorts value with
        | some original =>
          Res.err ⟨"Invalid field attribute usage", attr.span,
            "There\x27s already a field with the same starting character",
            none, some (original.name_span, "Field with same starting letter")⟩
        | none =>
          checkAttrsOfField { m with shorts := (value, field) :: m.shorts } field rest
    | .long =>
      match attr.value with
      | none => Res.panicked
      | some value =>
        if (assocFind m.longs value).isSome ∧ (assocFind m.aliases value).isSome then
          match assocFind m.longs value with
          | some original =>
            Res.err ⟨"Invalid field attribute usage", attr.span,
              "There\x27s already a field with the same long name or alias",
              none, some (original.name_span, "Field with same long or alias value")⟩
          | none => Res.panicked
        else
          checkAttrsOfField { m with longs := (value, field) :: m.longs } field rest
    | .alias =>
      match attr.value with
      | none => Res.panicked
      | some value =>
        if (assocFind m.aliases value).isSome ∧ (assocFind m.longs value).isSome then
          match assocFind m.aliases value with
          | some original =>
            Res.err ⟨"Invalid field attribute usage", attr.span,
              "There\x27s already a field with the same alias or long name",
              none, some (original.name_span, "Field with same alias or long value")⟩
          | none => Res.panicked
        else
          checkAttrsOfField { m with aliases := (value, field) :: m.aliases } field rest
    | .flatten =>
      match field.ty with
      | .vec inner =>
        match inner with
        | .vec _ => Res.panicked
        | .strukt _ => checkAttrsOfField m field rest
        | _ =>
          Res.err ⟨"Invalid field attribute", attr.span,
            "Flatten should be used with a custom type", none, none⟩
      | .strukt _ => checkAttrsOfField m field rest
      | _ =>
        Res.err ⟨"Invalid field attribute", attr.span,
          "Flatten should be used with a custom type", none, none⟩
    | .main | .subcommand =>
      Res.err ⟨"Semantic error", attr.span, "Invalid field attribute",
        some allowedFieldAttrsHelp, none⟩

/-- Field loop of `check_field_attributes`. -/
def checkFieldAttributesGo (m : AttrMaps) : List Field → Res Unit
  | [] => Res.ok ()
  | field :: rest => do
    let m' ← checkAttrsOfField m field field.attributes
    checkFieldAttributesGo m' rest

/-- `check_field_attributes`. -/
def checkFieldAttributes (fields : List Field) : Res Unit :=
  checkFieldAttributesGo ⟨[], [], []⟩ fields

/-- `check_semantics`: build the symbol table, then run the per-struct
checks in declaration order. -/
def checkSemantics (spec : Spec) : Res (List (String × Struct)) := do
  let identifierToStruct ← checkForMultipleStructDefinitions spec.structs
  let contains := fun name => (assocFind identifierToStruct name).isSome
  let _ ← spec.structs.foldlM
    (fun _ strukt => do
      let _ ← checkForUndefinedTypes contains strukt.fields
      let _ ← checkForMultipleFieldDefinitions strukt.fields
      let _ ← checkStructAttributes strukt
      checkFieldAttributes strukt.fields)
    ()
  pure identifierToStruct

/-! ## Symbol table and `Struct::get_fields` (`src/types.rs`)

`SpecMetadata.identifier_to_struct` is a `HashMap` that code generation only
ever *indexes* (it is never iterated), so it is embedded extensionally as its
lookup function `String → Option Struct`.  Rust indexing with an absent key
panics; that arm is unreachable after semantic analysis and yields the empty
field list here. -/

/-- A symbol table, as its lookup function. -/
def SymTab : Type := String → Option Struct

/-- Build the lookup function of an association list as produced by
`checkForMultipleStructDefinitions` (front insertion, first match wins). -/
def mkTable (l : List (String × Struct)) : SymTab :=
  fun name => assocFind l name

/-- `spec_metadata.identifier_to_struct[name].fields` (panic on an absent
name modelled as the empty list; unreachable for semantically valid specs). -/
def tblGetFields (tbl : SymTab) (name : String) : List Field :=
  match tbl name with
  | some s => s.fields
  | none => []

/-- Whether a type is `Optional(_)` (mandatory-field test of
`write_struct_parse_method`). -/
def isOptionalTy : FieldType → Bool
  | .optional _ => true
  | _ => false

/-- The type dispatch shared by the `Flatten` arms of `Struct::get_fields`
and `write_parse_fields_r`: the referenced struct's field list for a bare or
`Vec`-wrapped struct reference.  The `FieldType::Vec(Vec(_))` arm is
`unreachable!()` in the source (semantic analysis panics first on such
input) and yields `none` here. -/
def flattenTargetOfType (tbl : SymTab) : FieldType → Option (List Field)
  | .vec inner =>
    match inner with
    | .strukt name => some (tblGetFields tbl name)
    | _ => none
  | .strukt name => some (tblGetFields tbl name)
  | _ => none

/-- `Struct::get_fields`: the struct's own fields chained with, for each
field whose first applicable `Flatten` attribute resolves, the referenced
struct's *own* field list. -/
def getFields (tbl : SymTab) (s : Struct) : List Field :=
  s.fields ++
    (s.fields.filterMap fun field =>
      field.attributes.findSome? fun attr =>
        match attr.ty with
        | .flatten => flattenTargetOfType tbl field.ty
        | _ => none).flatten

/-! ## Code generator (`src/generate/cpp.rs`)

A byte-faithful embedding of the C++ source emission.  The
`cpp_source_builder_writeln!`/`cpp_source_builder_write!` macros pad with the
current indentation when it is nonzero and `writeln!` appends a newline. -/

/-- `field_type_to_cpp_type`. -/
def fieldTypeToCppType : FieldType → String
  | .string => "std::string"
  | .i16 => "int16_t"
  | .u16 => "uint16_t"
  | .i32 => "int32_t"
  | .u32 => "uint32_t"
  | .i64 => "int64_t"
  | .u64 => "uint64_t"
  | .f32 => "float"
  | .f64 => "double"
  | .bool => "bool"
  | .vec inner => "std::vector<" ++ fieldTypeToCppType inner ++ ">"
  | .optional inner => "std::optional<" ++ fieldTypeToCppType inner ++ ">"
  | .strukt name => name

/-- `CppSourceBuilder`. -/
structure CppSourceBuilder where
  buffer : String
  indentation : Nat
  deriving DecidableEq, Repr

/-- The empty builder (`CppSourceBuilder::default()`). -/
def CppSourceBuilder.empty : CppSourceBuilder := ⟨"", 0⟩

/-- `left_pad`. -/
def leftPad (padding : Nat) : String :=
  String.mk (List.replicate padding ' ')

/-- `cpp_source_builder_writeln!(self, ...)`: pad when indented, append the
text and a newline. -/
def CppSourceBuilder.wln (b : CppSourceBuilder) (s : String) : CppSourceBuilder :=
  { b with buffer := b.buffer ++ (if b.indentation ≠ 0 then leftPad b.indentation else "") ++ s ++ "\n" }

/-- `cpp_source_builder_writeln!(self)`: bare newline, no padding. -/
def CppSourceBuilder.wlnBlank (b : CppSourceBuilder) : CppSourceBuilder :=
  { b with buffer := b.buffer ++ "\n" }

/-- `cpp_source_builder_write!(self, ...)`: pad when indented, append. -/
def CppSourceBuilder.wr (b : CppSourceBuilder) (s : String) : CppSourceBuilder :=
  { b with buffer := b.buffer ++ (if b.indentation ≠ 0 then leftPad b.indentation else "") ++ s }

/-- `push_indentation_level`. -/
def CppSourceBuilder.push (b : CppSourceBuilder) : CppSourceBuilder :=
  { b with indentation := b.indentation + 4 }

/-- `pop_indentation_level` (saturating below 4). -/
def CppSourceBuilder.pop (b : CppSourceBuilder) : CppSourceBuilder :=
  { b with indentation := if b.indentation ≥ 4 then b.indentation - 4 else b.indentation }

/-- `set_indentation_level`. -/
def CppSourceBuilder.setInd (b : CppSourceBuilder) (n : Nat) : CppSourceBuilder :=
  { b with indentation := n }

/-- `write_header_guard_start`. -/
def writeHeaderGuardStart (b : CppSourceBuilder) : CppSourceBuilder :=
  b.wln "#ifndef _CLI_H_" |>.wln "#define _CLI_H_" |>.wlnBlank

/-- `write_header_guard_end`. -/
def writeHeaderGuardEnd (b : CppSourceBuilder) : CppSourceBuilder :=
  b.wln "#endif // _CLI_H_"

/-- `write_include_headers`. -/
def writeIncludeHeaders (b : CppSourceBuilder) : CppSourceBuilder :=
  b.wln "#include <cstdint>" |>.wln "#include <cstdlib>" |>.wln "#include <cstring>"
    |>.wln "#include <cstdio>" |>.wln "#include <cerrno>" |>.wln "#include <string>"
    |>.wln "#include <vector>" |>.wlnBlank

/-- `write_struct_start`. -/
def writeStructStart (b : CppSourceBuilder) (structName : String) : CppSourceBuilder :=
  b.wln ("struct " ++ structName ++ " \x7b")

/-- `write_struct_end` (`"}};\n"` under `writeln!`). -/
def writeStructEnd (b : CppSourceBuilder) : CppSourceBuilder :=
  b.wln "\x7d;\n"

/-- `write_struct_field`. -/
def writeStructField (b : CppSourceBuilder) (field : Field) : CppSourceBuilder :=
  (b.push.wln (fieldTypeToCppType field.ty ++ " " ++ field.name ++ ";")).pop

/-- `write_parse_numeric_field`: the conversion call differs per numeric
type, and the `errno == ERANGE` and `arg_res == 0 && strcmp(arg, "0") != 0`
validation blocks are emitted unconditionally after it — for the float types
exactly as for the integer types.  Note the carve-out compares `arg` (the
option token), not `arg_value`.  On a non-numeric `FieldType` (the
`_ => unreachable!()` arm, never reached by `write_parse_field_type`) the
builder is returned unchanged. -/
def writeParseNumericField (b : CppSourceBuilder) (fieldType : FieldType) : CppSourceBuilder :=
  let conv : Option String :=
    match fieldType with
    | .i16 | .u16 | .i32 | .u32 | .i64 | .u64 => some "std::strtoll(arg_value, nullptr, 10)"
    | .f32 => some "std::strtof(arg_value, nullptr)"
    | .f64 => some "std::strtod(arg_value, nullptr)"
    | _ => none
  match conv with
  | none => b
  | some conversionFunction =>
    let cppType := fieldTypeToCppType fieldType
    b.wln "char* arg_value = args[0];"
      |>.wln (cppType ++ " arg_res = static_cast<" ++ cppType ++ ">(" ++ conversionFunction ++ ");")
      |>.wlnBlank
      |>.wln "if (errno == ERANGE) \x7b"
      |>.push
      |>.wln "printf(\"Value \x27%s\x27 of option \x27%s\x27 out of range for integer type\", arg_value, arg);"
      |>.wln "exit(1);"
      |>.pop
      |>.wln "\x7d"
      |>.wln "if (arg_res == 0 && strcmp(arg, \"0\") != 0) \x7b"
      |>.push
      |>.wln "printf(\"Value \x27%s\x27 of option \x27%s\x27 is not a valid integer\", arg_value, arg);"
      |>.wln "exit(1);"
      |>.pop
      |>.wln "\x7d"

/-- `write_parse_value_option_preamble` (local fn of
`write_parse_field_type`): advance one token and fail when none remains or —
unless `is_string` — when the next token is a recognized option. -/
def writeParseValueOptionPreamble (b : CppSourceBuilder) (structName : String)
    (isString : Bool) : CppSourceBuilder :=
  let b := b.wln "++args;" |>.wln "++i;" |>.wr "if (i == argc"
  let indentationLevel := b.indentation
  let b := b.setInd 0
  let b :=
    if isString then b.wln ") \x7b"
    else b.wln (" || " ++ structName ++ "::is_option(args[0])) \x7b")
  (b.setInd indentationLevel).push
    |>.wln "printf(\"Expected value for option \x27%s\x27 but no value was provided\", arg);"
    |>.wln "exit(1);"
    |>.pop
    |>.wln "\x7d"

/-- `write_parse_field_type`: the preamble is written for every type except
`Vec(_)` and `Bool`, with `is_string` computed on the *current* type; the
second match recurses into `Vec`/`Optional` inners — so for `Optional(T)`
with non-`Vec`/`Bool` `T` the preamble is emitted twice. -/
def writeParseFieldType (structName : String) :
    FieldType → CppSourceBuilder → CppSourceBuilder
  | .string, b =>
    (writeParseValueOptionPreamble b structName true).wln "std::string arg_res = args[0];"
  | .i16, b => writeParseNumericField (writeParseValueOptionPreamble b structName false) .i16
  | .u16, b => writeParseNumericField (writeParseValueOptionPreamble b structName false) .u16
  | .i32, b => writeParseNumericField (writeParseValueOptionPreamble b structName false) .i32
  | .u32, b => writeParseNumericField (writeParseValueOptionPreamble b structName false) .u32
  | .i64, b => writeParseNumericField (writeParseValueOptionPreamble b structName false) .i64
  | .u64, b => writeParseNumericField (writeParseValueOptionPreamble b structName false) .u64
  | .f32, b => writeParseNumericField (writeParseValueOptionPreamble b structName false) .f32
  | .f64, b => writeParseNumericField (writeParseValueOptionPreamble b structName false) .f64
  | .bool, b => b.wln "bool arg_res = true;"
  | .strukt name, b =>
    (writeParseValueOptionPreamble b structName false).wln
      (name ++ " arg_res = " ++ name ++ "::parse(argc - i, args);")
  | .vec inner, b => writeParseFieldType structName inner b
  | .optional inner, b =>
    writeParseFieldType structName inner (writeParseValueOptionPreamble b structName false)

/-- The `-x`/`--y` spellings pushed into `match_fields_buffer` by the
`Short`/`Long`/`Alias` arms of `write_parse_fields_r`, in attribute order.
`Short`/`Long` use the field accessors (`field.short_value().unwrap()`); the
unwrap-on-`None` panic is modelled as the empty spelling and is unreachable
after parsing.  `Main`/`SubCommand` attrs hit `_ => unreachable!()` there,
likewise unreachable after semantic analysis. -/
def matchesOf (field : Field) : List String :=
  field.attributes.filterMap fun attr =>
    match attr.ty with
    | .short => some ("-" ++ (field.short_value.getD ""))
    | .long => some ("--" ++ (field.long_value.getD ""))
    | .alias => some ("--" ++ hyphenate (attr.value.getD ""))
    | _ => none

/-- The flatten targets of a field, in attribute order: for each `Flatten`
attribute the referenced struct's field list (`Vec(Vec(_))` and non-struct
types are `unreachable!()` arms in the source, skipped here). -/
def flattenTargets (tbl : SymTab) (field : Field) : List (List Field) :=
  field.attributes.filterMap fun attr =>
    match attr.ty with
    | .flatten => flattenTargetOfType tbl field.ty
    | _ => none

/-- One `else if` branch body of `write_parse_fields_r` for a field whose
`match_fields_buffer` is nonempty. -/
def emitBranch (b : CppSourceBuilder) (structName : String)
    (mIdx : String → Option Nat) (parents : List String) (field : Field)
    (ms : List String) : CppSourceBuilder :=
  let fieldMatcher :=
    String.intercalate " || " (ms.map fun m => "strcmp(arg, \"" ++ m ++ "\") == 0")
  let indentationLevel := b.indentation
  let b := ((b.setInd 1).wln ("else if (" ++ fieldMatcher ++ ") \x7b")).setInd indentationLevel
  let b := b.push
  let b := writeParseFieldType structName field.ty b
  let destination := String.intercalate "." parents
  let b :=
    match field.ty with
    | .vec _ => b.wln (destination ++ "." ++ field.name ++ ".push_back(arg_res);")
    | _ => b.wln (destination ++ "." ++ field.name ++ " = arg_res;")
  let b :=
    match mIdx field.name with
    | some index => b.wln ("mandatory_fields_seen[" ++ toString index ++ "] = true;")
    | none => b
  b.pop.wr "\x7d"

/-- Work items for the `write_parse_fields_r` recursion: a field list to
process under a destination path, or a pending own-branch emission.  The
Rust recursion pushes the field name before the `Flatten` recursion and the
callee pops it on return; here the extended path is passed down instead. -/
inductive PFJob where
  | fieldsJob (parents : List String) (fields : List Field)
  | branchJob (parents : List String) (field : Field) (ms : List String)

/-- `write_parse_fields_r`, as a worklist: for each field, the branches of
its flatten targets (in attribute order) are emitted before its own branch,
and the own branch only when its match buffer is nonempty.  Fuel bounds the
unbounded Rust recursion through the symbol table. -/
def writeParseFieldsJobs (tbl : SymTab) (structName : String)
    (mIdx : String → Option Nat) :
    Nat → CppSourceBuilder → List PFJob → CppSourceBuilder
  | 0, b, _ => b
  | _ + 1, b, [] => b
  | fuel + 1, b, .fieldsJob _ [] :: js => writeParseFieldsJobs tbl structName mIdx fuel b js
  | fuel + 1, b, .fieldsJob parents (f :: rest) :: js =>
    let tjobs := (flattenTargets tbl f).map fun tf => PFJob.fieldsJob (parents ++ [f.name]) tf
    let ms := matchesOf f
    let own := if ms.isEmpty then [] else [PFJob.branchJob parents f ms]
    writeParseFieldsJobs tbl structName mIdx fuel b
      (tjobs ++ own ++ PFJob.fieldsJob parents rest :: js)
  | fuel + 1, b, .branchJob parents f ms :: js =>
    writeParseFieldsJobs tbl structName mIdx fuel (emitBranch b structName mIdx parents f ms) js

/-- `write_parse_fields`: start the recursion with `parents = ["res"]`. -/
def writeParseFields (tbl : SymTab) (fuel : Nat) (b : CppSourceBuilder)
    (structName : String) (fields : List Field) (mIdx : String → Option Nat) :
    CppSourceBuilder :=
  writeParseFieldsJobs tbl structName mIdx fuel b [.fieldsJob ["res"] fields]

/-- The mandatory fields of a struct: those whose type is not
`Optional(_)`, in declaration order. -/
def mandatoryFields (strukt : Struct) : List Field :=
  strukt.fields.filter fun f => ¬ isOptionalTy f.ty

/-- `mandatory_field_name_to_index`: a `HashMap` built by inserting each
mandatory field's name with its enumeration index, later insertions
overwriting earlier ones; embedded as its lookup function. -/
def mandatoryFieldIndex (strukt : Struct) (name : String) : Option Nat :=
  ((((mandatoryFields strukt).map Field.name).enum.filter fun p => p.2 = name).getLast?).map
    fun p => p.1

/-- `write_struct_parse_method`. -/
def writeStructParseMethod (tbl : SymTab) (fuel : Nat) (b : CppSourceBuilder)
    (strukt : Struct) : CppSourceBuilder :=
  let structName := strukt.name
  let b := b.wlnBlank.push.wln ("static " ++ structName ++ " parse (int argc, char *args[]) \x7b")
  let b := b.push
  let b :=
    if strukt.attributes.any fun attr => attr.ty = AttributeType.main then
      b.wln "--argc;" |>.wln "++args;\n"
    else b
  let b := b.wr "const char* mandatory_field_names[] = \x7b"
  let indentationLevel := b.indentation
  let b := b.setInd 1
  let b := (mandatoryFields strukt).foldl (fun b f => b.wr ("\"" ++ f.name ++ "\",")) b
  let b := (b.wln "\x7d;").setInd indentationLevel
  let b := b.wln "bool mandatory_fields_seen[sizeof(mandatory_field_names)/sizeof(mandatory_field_names[0])] = \x7b false \x7d;\n"
  let b := b.wln (structName ++ " res = \x7b\x7d;")
  let b := b.wln "for (int i = 0; i != argc; ++i, ++args) \x7b"
  let b := b.push
  let b := b.wln "char *arg = args[0];"
  let b := b.wln "if (strcmp(\"-h\", arg) == 0 || strcmp(\"--help\", arg) == 0) \x7b"
  let b := (b.push.wln (structName ++ "::help();")).pop.wr "\x7d"
  let b := writeParseFields tbl fuel b structName strukt.fields (mandatoryFieldIndex strukt)
  let indentationLevel := b.indentation
  let b := ((b.setInd 1).wln "else \x7b").setInd indentationLevel
  let b := (b.push.wln "printf(\"Unknown option \x27%s\x27\\n\", arg);" |>.wln "exit(1);").pop
  let b := b.wln "\x7d"
  let b := b.pop.wln "\x7d\n"
  let b := b.wln "bool not_seen_any = false;"
  let b := b.wln "for (size_t i = 0; i != sizeof(mandatory_field_names)/sizeof(mandatory_field_names[0]); ++i) \x7b"
  let b := b.push.wln "if (!mandatory_fields_seen[i]) \x7b"
  let b := b.push.wln "printf(\"--%s was required but it was not provided\\n\", mandatory_field_names[i]);"
  let b := b.wln "not_seen_any = true;"
  let b := (b.pop.wln "\x7d").pop.wln "\x7d"
  let b := b.wln "if (not_seen_any) \x7b"
  let b := (b.push.wln "exit(1);").pop.wln "\x7d"
  let b := b.wln "return res;"
  (b.pop.wln "\x7d").pop

/-- `write_struct_help_method`: the usage banner, the implicit `-h, --help`
line, then one line per `get_fields` (one-level flattened) field. -/
def writeStructHelpMethod (tbl : SymTab) (b : CppSourceBuilder) (strukt : Struct) :
    CppSourceBuilder :=
  let b := b.wlnBlank.push.wln "static void help() \x7b"
  let b := b.push
  let b := b.wln ("printf(\"Usage: " ++ strukt.name ++ " [OPTIONS]\\n\"")
  let b := b.wln "\"\\n\""
  let b := b.wln "\"Options:\\n\""
  let b := b.wln "\"    -h, --help\\n\""
  let identationLevel := b.indentation
  let b := (getFields tbl strukt).foldl
    (fun b field =>
      let b := (b.wr "\"    ").setInd 0
      let b :=
        match field.short_value with
        | some shortValue => b.wr ("-" ++ shortValue)
        | none => b
      let b :=
        match field.long_value with
        | some longValue =>
          (if field.short_value.isSome then b.wr ", " else b).wr ("--" ++ longValue)
        | none => b
      let b :=
        if field.ty = FieldType.bool then b
        else b.wr (" <" ++ field.name.toUpper ++ ">")
      (b.wln "\\n\"").setInd identationLevel)
    b
  let b := b.pop.wln ");"
  let b := b.wln "exit(0);"
  (b.pop.wln "\x7d").pop

/-- `write_is_option_method`: the `valid_options` table over the
`get_fields` (one-level flattened) fields' short/long spellings, counted by
`num_fields`. -/
def writeIsOptionMethod (tbl : SymTab) (b : CppSourceBuilder) (strukt : Struct) :
    CppSourceBuilder :=
  let b := b.wlnBlank.push.wln "static bool is_option(char* arg) \x7b"
  let b := b.push.wln "static const char* valid_options[] = \x7b"
  let b := b.push
  let st := (getFields tbl strukt).foldl
    (fun (st : CppSourceBuilder × Nat) field =>
      let st :=
        match field.short_value with
        | some shortValue => (st.1.wln ("\"-" ++ shortValue ++ "\","), st.2 + 1)
        | none => st
      match field.long_value with
      | some longValue => (st.1.wln ("\"--" ++ longValue ++ "\","), st.2 + 1)
      | none => st)
    (b, 0)
  let b := st.1
  let numFields := st.2
  let b := b.pop.wln "\x7d;"
  let b := b.wlnBlank
  let b := b.wln ("for (size_t i = 0; i != " ++ toString numFields ++ "; ++i) \x7b")
  let b := b.push.wln "if (strcmp(arg, valid_options[i]) == 0) \x7b"
  let b := b.push.wln "return true;"
  let b := (b.pop.wln "\x7d").pop.wln "\x7d"
  let b := b.wlnBlank.wln "return false;"
  (b.pop.wln "\x7d").pop

/-- `field_to_print_statement` (local fn of `write_debug_print_method`); the
`unreachable!()` arms for nested `Vec`/`Optional` produce the empty
statement here. -/
def fieldToPrintStatement (field : Field) : String :=
  let name := field.name
  match field.ty with
  | .string => "printf(\"\\t" ++ name ++ ": %s\\n\", this->" ++ name ++ ".c_str());"
  | .i16 | .u16 | .i32 | .u32 | .i64 | .u64 =>
    "printf(\"\\t" ++ name ++ ": %d\\n\", this->" ++ name ++ ");"
  | .f32 | .f64 => "printf(\"\\t" ++ name ++ ": %f\\n\", this->" ++ name ++ ");"
  | .bool =>
    "printf(\"\\t" ++ name ++ ": %s\\n\", this->" ++ name ++ " ? \"true\" : \"false\");"
  | .vec inner =>
    match inner with
    | .string => "printf(\"\\t%s,\\n\", this->" ++ name ++ "[i].c_str());"
    | .i16 | .u16 | .i32 | .u32 | .i64 | .u64 =>
      "printf(\"\\t%d,\\n\", this->" ++ name ++ "[i]);"
    | .f32 | .f64 => "printf(\"\\t%f,\\n\", this->" ++ name ++ "[i]);"
    | .bool => "printf(\"\\t%s,\\n\", this->" ++ name ++ "[i] ? \"true\" : \"false\");"
    | .vec _ => ""
    | .optional _ => ""
    | .strukt _ => "this->" ++ name ++ "[i].print_debug();"
  | .strukt _ => "this->" ++ name ++ ".print_debug();"
  | .optional inner =>
    match inner with
    | .string => "printf(\"\\t%s,\\n\", this->" ++ name ++ "[i].c_str());"
    | .i16 | .u16 | .i32 | .u32 | .i64 | .u64 =>
      "printf(\"\\t%d,\\n\", this->" ++ name ++ "[i].value());"
    | .f32 | .f64 => "printf(\"\\t%f,\\n\", this->" ++ name ++ "[i].value());"
    | .bool =>
      "printf(\"\\t%s,\\n\", this->" ++ name ++ "[i].value() ? \"true\" : \"false\");"
    | .vec _ => ""
    | .optional _ => ""
    | .strukt _ => "this->" ++ name ++ "[i].value().print_debug();"

/-- `write_debug_print_method`. -/
def writeDebugPrintMethod (b : CppSourceBuilder) (strukt : Struct) : CppSourceBuilder :=
  let b := b.wlnBlank.push.wln "void print_debug() \x7b"
  let b := b.push.wln ("printf(\"" ++ strukt.name ++ " \x7b\\n\");")
  let b := strukt.fields.foldl
    (fun b field =>
      let printStatement := fieldToPrintStatement field
      match field.ty with
      | .vec _ =>
        let b := b.wln ("printf(\"\\t" ++ field.name ++ ": [\\n\");")
        let b := b.wln ("for (size_t i = 0; i != this->" ++ field.name ++ ".size(); ++i) \x7b")
        let b := (b.push.wln printStatement).pop.wln "\x7d"
        b.wln "printf(\"\\t]\\n\");"
      | _ => b.wln printStatement)
    b
  let b := b.wln "printf(\"\x7d\\n\");"
  (b.pop.wln "\x7d").pop

/-- `generate_cli`: the whole output unit, structs in declaration order;
each struct section is fields, debug print, help, `is_option`, `parse`. -/
def generateCli (fuel : Nat) (spec : Spec) (tbl : SymTab) : String :=
  let b := writeIncludeHeaders (writeHeaderGuardStart CppSourceBuilder.empty)
  let b := spec.structs.foldl
    (fun b strukt =>
      let b := writeStructStart b strukt.name
      let b := strukt.fields.foldl writeStructField b
      let b := writeDebugPrintMethod b strukt
      let b := writeStructHelpMethod tbl b strukt
      let b := writeIsOptionMethod tbl b strukt
      let b := writeStructParseMethod tbl fuel b strukt
      writeStructEnd b)
    b
  (writeHeaderGuardEnd b).buffer

/-! ## Runtime semantics of the generated parser

An interpreter for the C++ parse procedure emitted by
`write_struct_parse_method` / `write_parse_fields_r` /
`write_parse_field_type`: the emitted `else if` chain becomes a branch list
(in emission order), the loop over `argv` becomes a loop over a token list,
and each emitted statement sequence becomes the corresponding state change.
`exit`ing paths become terminal outcomes.  C library details: `strtoll` is
modelled per the C standard (base 10, leading whitespace and sign, clamp and
`ERANGE` on overflow, `0` without error on no conversion); since every
conversion is immediately followed by the emitted `errno == ERANGE` check,
which exits on failure, modelling `errno` per conversion is observationally
equivalent to the sticky `errno` of C.  Float conversions are modelled only
as precisely as the claims need: the value is kept as its token, overflow
`ERANGE` is not modelled, and the emitted `arg_res == 0` test is decided by
a decimal parse (no hex/inf/nan forms). -/

/-- A C++ runtime value of the generated code.  A nested struct value is the
journal of assignments its `parse` performed. -/
inductive CppVal where
  | str (s : String)
  | int (i : Int)
  | boolean (b : Bool)
  | flt (raw : String)
  | nested (entries : List (List String × Bool × CppVal))

/-- One recorded assignment of the generated parse loop:
destination path (e.g. `res.cfg.cfg`), whether it is a `push_back`, and the
value. -/
abbrev JEntry : Type := List String × Bool × CppVal

/-- Terminal outcome of one invocation of a generated `parse` procedure. -/
inductive RunOutcome where
  | helpExit
  | errExit (msg : String)
  | missingExit (missing : List String)
  | ok (res : List JEntry)
  | stuck

/-- One `else if` branch of the emitted parse loop. -/
structure Branch where
  spellings : List String
  ty : FieldType
  path : List String
  isPush : Bool
  seenIdx : Option Nat

/-- Worklist items for branch compilation, mirroring `PFJob`: a field list
to process under a destination path, or a pending own-branch emission for a
field whose match buffer `ms` is nonempty. -/
inductive CBJob where
  | fieldsJob (parents : List String) (fields : List Field)
  | ownJob (parents : List String) (f : Field) (ms : List String)

/-- Whether a type is `Vec(_)` (the `push_back` test). -/
def isVecTy : FieldType → Bool
  | .vec _ => true
  | _ => false

/-- The branch list of the emitted parse loop, in emission order: for each
field the branches of its flatten targets first, then its own branch when it
has any `Short`/`Long`/`Alias` spelling.  `none` models running out of fuel
on a cyclic flatten chain (where the Rust recursion would not return). -/
def compileJobs (tbl : SymTab) (mIdx : String → Option Nat) :
    Nat → List CBJob → Option (List Branch)
  | 0, _ => none
  | _ + 1, [] => some []
  | fuel + 1, .fieldsJob _ [] :: js => compileJobs tbl mIdx fuel js
  | fuel + 1, .fieldsJob parents (f :: rest) :: js =>
    let tjobs := (flattenTargets tbl f).map fun tf => CBJob.fieldsJob (parents ++ [f.name]) tf
    let ms := matchesOf f
    let own := if ms.isEmpty then [] else [CBJob.ownJob parents f ms]
    compileJobs tbl mIdx fuel (tjobs ++ own ++ CBJob.fieldsJob parents rest :: js)
  | fuel + 1, .ownJob parents f ms :: js =>
    (compileJobs tbl mIdx fuel js).map fun bs =>
      ⟨ms, f.ty, parents ++ [f.name], isVecTy f.ty, mIdx f.name⟩ :: bs

/-- The branch list for a struct's own parse method. -/
def compileBranches (tbl : SymTab) (mIdx : String → Option Nat) (fuel : Nat)
    (fields : List Field) : Option (List Branch) :=
  compileJobs tbl mIdx fuel [.fieldsJob ["res"] fields]

/-- The spellings in the emitted `valid_options` table of `is_option`:
`-short` and `--long` (no aliases), over the one-level flattened
`get_fields`. -/
def optionStrings (tbl : SymTab) (s : Struct) : List String :=
  (getFields tbl s).flatMap fun field =>
    (match field.short_value with
     | some shortValue => ["-" ++ shortValue]
     | none => []) ++
    (match field.long_value with
     | some longValue => ["--" ++ longValue]
     | none => [])

/-- C `isspace` characters for the `strtoll` prefix. -/
def isCWs (c : Char) : Bool :=
  c = ' ' ∨ c = '\t' ∨ c = '\n' ∨ c = '\x0b' ∨ c = '\x0c' ∨ c = '\x0d'

/-- Model of `std::strtoll(s, nullptr, 10)`: (result, `errno == ERANGE`).
No digits yields `0` without an error. -/
def strtollModel (s : String) : Int × Bool :=
  let l := s.data.dropWhile isCWs
  let p : Bool × List Char :=
    match l with
    | '-' :: t => (true, t)
    | '+' :: t => (false, t)
    | t => (false, t)
  let digits := p.2.takeWhile Char.isDigit
  let n : Nat := digits.foldl (fun acc c => acc * 10 + (c.toNat - 48)) 0
  let v : Int := if p.1 then -(n : Int) else (n : Int)
  if v > 2 ^ 63 - 1 then (2 ^ 63 - 1, true)
  else if v < -(2 ^ 63) then (-(2 ^ 63), true)
  else (v, false)

/-- Two's-complement wrap into an unsigned width. -/
def wrapU (v : Int) (w : Nat) : Int := v % ((2 : Int) ^ w)

/-- Two's-complement wrap into a signed width. -/
def wrapS (v : Int) (w : Nat) : Int :=
  let r := v % ((2 : Int) ^ w)
  if r < (2 : Int) ^ (w - 1) then r else r - (2 : Int) ^ w

/-- `static_cast<cpp_type>(long long)` for the integer family. -/
def castToCpp (ty : FieldType) (v : Int) : Int :=
  match ty with
  | .i16 => wrapS v 16
  | .u16 => wrapU v 16
  | .i32 => wrapS v 32
  | .u32 => wrapU v 32
  | .i64 => wrapS v 64
  | .u64 => wrapU v 64
  | _ => v

/-- Whether `strtof`/`strtod` yields exactly zero on this token: either no
conversion happens or the parsed decimal significand is all zeros. -/
def floatParsesToZero (s : String) : Bool :=
  let l := s.data.dropWhile isCWs
  let l := match l with
    | '-' :: t => t
    | '+' :: t => t
    | t => t
  let intPart := l.takeWhile Char.isDigit
  let rest := l.drop intPart.length
  let fracPart :=
    match rest with
    | '.' :: t => t.takeWhile Char.isDigit
    | _ => []
  if intPart.isEmpty ∧ fracPart.isEmpty then true
  else (intPart ++ fracPart).all fun c => c = '0'

/-- The message of the emitted missing-value `printf` (`arg` is the option
token). -/
def missingValueMsg (arg : String) : String :=
  "Expected value for option \x27" ++ arg ++ "\x27 but no value was provided"

/-- The message of the emitted out-of-range `printf`. -/
def rangeMsg (v arg : String) : String :=
  "Value \x27" ++ v ++ "\x27 of option \x27" ++ arg ++ "\x27 out of range for integer type"

/-- The message of the emitted invalid-integer `printf`. -/
def invalidIntMsg (v arg : String) : String :=
  "Value \x27" ++ v ++ "\x27 of option \x27" ++ arg ++ "\x27 is not a valid integer"

/-- The message of the emitted unknown-option `printf`. -/
def unknownOptionMsg (arg : String) : String :=
  "Unknown option \x27" ++ arg ++ "\x27\n"

/-- Semantics of the statements emitted by `write_parse_numeric_field` for a
value token `v` of option token `arg`: convert, then the `errno == ERANGE`
check, then the `arg_res == 0 && strcmp(arg, "0") != 0` check — note both
emitted checks compare `arg`, the *option* token, in the carve-out, and both
are emitted for the float types as well.  The non-numeric catch-all mirrors
the `_ => unreachable!()` arm, never reached. -/
def numericEval (ty : FieldType) (v arg : String) : Except String CppVal :=
  match ty with
  | .i16 | .u16 | .i32 | .u32 | .i64 | .u64 =>
    let res := strtollModel v
    let cast := castToCpp ty res.1
    if res.2 then .error (rangeMsg v arg)
    else if cast = 0 ∧ arg ≠ "0" then .error (invalidIntMsg v arg)
    else .ok (.int cast)
  | .f32 | .f64 =>
    if floatParsesToZero v ∧ arg ≠ "0" then .error (invalidIntMsg v arg)
    else .ok (.flt v)
  | _ => .error ""

/-- End-of-loop missing-mandatory check of the emitted parse method: one
reported name per unseen mandatory field, `exit(1)` when any; otherwise the
populated result is returned. -/
def finishScan (mand : List String) (seen : List Bool) (res : List JEntry) : RunOutcome :=
  let missing := (mand.zip seen).filterMap fun p => if p.2 then none else some p.1
  if missing.isEmpty then .ok res else .missingExit missing

/-- `mandatory_fields_seen[index] = true;` when the branch carries one. -/
def updSeen (seen : List Bool) : Option Nat → List Bool
  | some i => seen.set i true
  | none => seen

/-- Semantics of the emitted value-consumption preamble
(`write_parse_value_option_preamble`): advance one token (`++args; ++i;`),
failing when none remains or — unless the type whose branch emitted it is
`String` — when the next token is in the host struct's `is_option` table.
Returns the value token and the remaining tokens. -/
def valPreamble (hostOpts : List String) (isString : Bool) (arg : String)
    (toks : List String) : Except String (String × List String) :=
  match toks with
  | [] => .error (missingValueMsg arg)
  | v :: t' =>
    if ¬ isString ∧ hostOpts.contains v then .error (missingValueMsg arg)
    else .ok (v, t')

/-- One numeric branch body: the preamble (with `is_string = false`), then
the conversion-and-validation statements of `write_parse_numeric_field`. -/
def numericValStep (ty : FieldType) (hostOpts : List String) (arg : String)
    (toks : List String) : Except String (Nat × CppVal) :=
  match valPreamble hostOpts false arg toks with
  | .error m => .error m
  | .ok (v, _) => (numericEval ty v arg).map fun vv => (1, vv)

/-- `spec_metadata.identifier_to_struct[name]` for the nested
`Name::parse` call (Rust panics on an absent name; unreachable for
semantically valid specs, the empty struct here). -/
def tblGetStruct (tbl : SymTab) (name : String) : Struct :=
  match tbl name with
  | some s => s
  | none => ⟨[], [], "", ⟨0, 0⟩⟩

/-- The three mutually recursive pieces of the interpreter: a struct's
`parse` entry, its scan loop, and the value consumption of one matched
branch. -/
inductive RtCall where
  | onStruct (s : Struct) (toks : List String)
  | onLoop (hostOpts : List String) (bs : List Branch) (mand : List String)
      (seen : List Bool) (res : List JEntry) (toks : List String)
  | onVal (hostOpts : List String) (ty : FieldType) (arg : String) (toks : List String)

/-- Result of an interpreter call: a terminal outcome, or (for `onVal`) the
number of loop tokens consumed and the produced value. -/
inductive RtRes where
  | out (o : RunOutcome)
  | val (r : Except String (Nat × CppVal))

/-- The interpreter.  `cfuel` bounds branch compilation (the unbounded Rust
codegen recursion through flatten), the structural fuel bounds execution;
`stuck` marks fuel exhaustion only.

`onStruct s toks` is `S::parse(argc, args)` *after* the `Main`-attribute
program-name skip: build `mandatory_field_names` / `mandatory_fields_seen`,
then scan.  `onLoop` is one iteration of `for (int i = 0; i != argc; ...)`:
`-h`/`--help` exits 0 via `help()`, then the emitted `else if` chain in
order, then the unknown-option `else`.  `onVal` follows
`write_parse_field_type` exactly: no preamble for `Vec(_)`/`Bool`, otherwise
advance one token, failing when none remains or — unless the *current* type
is `String` — when the next token is in the host struct's `is_option` table;
then the per-type conversion, `Optional(T)` recursing into `T` (a second
preamble, hence a second token), `Struct(n)` running the referenced struct's
own parse on the remaining slice while the host loop advances only one
token. -/
def runtime (tbl : SymTab) (cfuel : Nat) : Nat → RtCall → RtRes
  | 0, _ => .out .stuck
  | n + 1, .onStruct s toks =>
    match compileBranches tbl (mandatoryFieldIndex s) cfuel s.fields with
    | none => .out .stuck
    | some bs =>
      let mand := (mandatoryFields s).map Field.name
      runtime tbl cfuel n
        (.onLoop (optionStrings tbl s) bs mand (List.replicate mand.length false) [] toks)
  | n + 1, .onLoop hostOpts bs mand seen res toks =>
    match toks with
    | [] => .out (finishScan mand seen res)
    | arg :: rest =>
      if arg = "-h" ∨ arg = "--help" then .out .helpExit
      else
        match bs.find? fun b => b.spellings.contains arg with
        | none => .out (.errExit (unknownOptionMsg arg))
        | some b =>
          match runtime tbl cfuel n (.onVal hostOpts b.ty arg rest) with
          | .val (.ok (k, v)) =>
            runtime tbl cfuel n (.onLoop hostOpts bs mand (updSeen seen b.seenIdx)
              (res ++ [(b.path, b.isPush, v)]) (rest.drop k))
          | .val (.error m) => .out (.errExit m)
          | .out o => .out o
  | n + 1, .onVal hostOpts .string arg toks =>
    match valPreamble hostOpts true arg toks with
    | .error m => .val (.error m)
    | .ok p => .val (.ok (1, .str p.1))
  | n + 1, .onVal hostOpts .i16 arg toks => .val (numericValStep .i16 hostOpts arg toks)
  | n + 1, .onVal hostOpts .u16 arg toks => .val (numericValStep .u16 hostOpts arg toks)
  | n + 1, .onVal hostOpts .i32 arg toks => .val (numericValStep .i32 hostOpts arg toks)
  | n + 1, .onVal hostOpts .u32 arg toks => .val (numericValStep .u32 hostOpts arg toks)
  | n + 1, .onVal hostOpts .i64 arg toks => .val (numericValStep .i64 hostOpts arg toks)
  | n + 1, .onVal hostOpts .u64 arg toks => .val (numericValStep .u64 hostOpts arg toks)
  | n + 1, .onVal hostOpts .f32 arg toks => .val (numericValStep .f32 hostOpts arg toks)
  | n + 1, .onVal hostOpts .f64 arg toks => .val (numericValStep .f64 hostOpts arg toks)
  | _ + 1, .onVal _ .bool _ _ => .val (.ok (0, .boolean true))
  | n + 1, .onVal hostOpts (.vec inner) arg toks =>
    runtime tbl cfuel n (.onVal hostOpts inner arg toks)
  | n + 1, .onVal hostOpts (.optional inner) arg toks =>
    match valPreamble hostOpts false arg toks with
    | .error m => .val (.error m)
    | .ok p =>
      match runtime tbl cfuel n (.onVal hostOpts inner arg p.2) with
      | .val (.ok (k, vv)) => .val (.ok (k + 1, vv))
      | r => r
  | n + 1, .onVal hostOpts (.strukt name) arg toks =>
    match valPreamble hostOpts false arg toks with
    | .error m => .val (.error m)
    | .ok p =>
      match runtime tbl cfuel n (.onStruct (tblGetStruct tbl name) (p.1 :: p.2)) with
      | .out (.ok j) => .val (.ok (1, .nested j))
      | r => r

/-- Run one generated `parse` procedure on an argument slice (after the
optional `Main` program-name skip). -/
def runStruct (tbl : SymTab) (cfuel tfuel : Nat) (s : Struct) (toks : List String) :
    RunOutcome :=
  match runtime tbl cfuel tfuel (.onStruct s toks) with
  | .out o => o
  | .val _ => .stuck

/-! ## Shared helper lemmas and concrete fixtures -/

/-- Whether a pipeline stage succeeded. -/
def Res.isOk {α : Type} : Res α → Bool
  | .ok _ => true
  | _ => false

theorem Res.bind_ok {α β : Type} (a : α) (f : α → Res β) : (Res.ok a >>= f) = f a := rfl

theorem Res.bind_err {α β : Type} (d : Diag) (f : α → Res β) :
    (Res.err d >>= f : Res β) = Res.err d := rfl

theorem Res.bind_panicked {α β : Type} (f : α → Res β) :
    (Res.panicked >>= f : Res β) = Res.panicked := rfl

theorem Res.bind_fuelOut {α β : Type} (f : α → Res β) :
    (Res.fuelOut >>= f : Res β) = Res.fuelOut := rfl

/-- The zero span used by concrete fixtures. -/
def z0 : Span := ⟨0, 0⟩

/-- The empty symbol table. -/
def emptyTbl : SymTab := fun _ => none

/-- Fixture: `count: Optional<i32>` with `#[long]` (resolved value
`count`). -/
def optCountField : Field := ⟨"count", [⟨.long, some "count", z0⟩], .optional .i32, z0, z0⟩

/-- Fixture: a struct whose only field is `optCountField`. -/
def optCountStruct : Struct := ⟨[], [optCountField], "Args", z0⟩

/-- Fixture: `count: i32` with `#[long]`. -/
def intCountField : Field := ⟨"count", [⟨.long, some "count", z0⟩], .i32, z0, z0⟩

/-- Fixture: a struct whose only field is `intCountField`. -/
def intCountStruct : Struct := ⟨[], [intCountField], "Args", z0⟩

/-! ## The claims -/

/-- C1: the claim states that for an `Optional<T>` field the generated
parser, on matching the flag, advances to exactly one following token and
stores it, failing with the missing-value message only when no token remains
(or the next token is a recognized option).  The code instead emits the
value-consumption preamble twice for `Optional` — once for the `Optional`
type itself and once for the recursion into `T` — so the generated parser
consumes *two* tokens: with arguments `--count 5` it exits 1 with the
missing-value message even though a value token is present, and with
`--count 5 7` it skips `5` and stores `7`. -/
theorem c1_optional_consumes_two_tokens :
    runStruct emptyTbl 9 9 optCountStruct ["--count", "5"] =
      RunOutcome.errExit (missingValueMsg "--count") ∧
    runStruct emptyTbl 9 9 optCountStruct ["--count", "5", "7"] =
      RunOutcome.ok [(["res", "count"], false, CppVal.int 7)] :=
  ⟨rfl, rfl⟩

/-- Fixture: two fields with the same explicit `#[long = same]` value. -/
def dupLongA : Field := ⟨"a", [⟨.long, some "same", z0⟩], .string, z0, z0⟩

/-- Fixture: second field of the duplicate-long pair. -/
def dupLongB : Field := ⟨"b", [⟨.long, some "same", z0⟩], .string, z0, z0⟩

/-- Fixture: a field with `#[alias = same]`. -/
def dupAliasA : Field := ⟨"a", [⟨.alias, some "same", z0⟩], .string, z0, z0⟩

/-- Fixture: second field with `#[alias = same]`. -/
def dupAliasB : Field := ⟨"b", [⟨.alias, some "same", z0⟩], .string, z0, z0⟩

/-- C2: the claim states that two fields sharing a resolved `Long` value, or
a resolved `Alias` value, or a `Long` and an `Alias` with the same text,
fail semantic analysis with a collision diagnostic.  The code's collision
conditions are `longs.contains_key(value) && aliases.contains_key(value)`
(and symmetrically), so a collision is reported only when the value is
already in *both* maps: two identical longs pass, two identical aliases
pass, and a long followed by an identical alias passes — each shown here,
including the full pipeline on the two-identical-longs source. -/
theorem c2_duplicate_long_accepted :
    checkFieldAttributes [dupLongA, dupLongB] = Res.ok () ∧
    checkFieldAttributes [dupAliasA, dupAliasB] = Res.ok () ∧
    checkFieldAttributes [dupLongA, dupAliasB] = Res.ok () ∧
    (Res.isOk (do
      let sp ← parse "struct A \x7b #[long = same] a: string, #[long = same] b: string \x7d"
      checkSemantics sp) = true) :=
  ⟨rfl, rfl, rfl, rfl⟩

/-- C3: the claim states that an `i32` field given value token `0` succeeds
and stores `0`, the literal-"0" carve-out comparing the *value* token.  The
emitted carve-out is `arg_res == 0 && strcmp(arg, "0") != 0` where `arg` is
the *option* token (`--count`), never `"0"`, so value `0` always exits 1
with the invalid-integer message.  The `abc` and `5` cases behave as the
claim says. -/
theorem c3_zero_value_rejected :
    runStruct emptyTbl 9 9 intCountStruct ["--count", "abc"] =
      RunOutcome.errExit (invalidIntMsg "abc" "--count") ∧
    runStruct emptyTbl 9 9 intCountStruct ["--count", "0"] =
      RunOutcome.errExit (invalidIntMsg "0" "--count") ∧
    runStruct emptyTbl 9 9 intCountStruct ["--count", "5"] =
      RunOutcome.ok [(["res", "count"], false, CppVal.int 5)] :=
  ⟨rfl, rfl, rfl⟩

/-- C6: the claim states the parser returns a `Spec` or a rendered
diagnostic for every input and never panics.  The three `_ => unreachable!()`
arms are reachable: a top-level `,`, a top-level attribute block followed by
an identifier, and a `,` directly inside a struct body each panic instead of
producing a diagnostic. -/
theorem c6_parser_panics_on_unexpected_tokens :
    parse "," = Res.panicked ∧
    parse "#[main] x" = Res.panicked ∧
    parse "struct A \x7b , \x7d" = Res.panicked :=
  ⟨rfl, rfl, rfl⟩

/-- C4 counterexample: the claim includes `Optional`-wrapped struct
references among those that must fail the undefined-type check, but the
check's catch-all ignores `Optional(_)` entirely: a field
`x: Optional<Missing>` passes `check_for_undefined_types` with an empty
table, and the whole pipeline accepts the corresponding source. -/
theorem c4_optional_ref_unchecked :
    checkForUndefinedTypes (fun _ => false)
      [⟨"x", [], .optional (.strukt "Missing"), z0, z0⟩] = Res.ok () ∧
    Res.isOk (do
      let sp ← parse "struct A \x7b x: Optional<Missing> \x7d"
      checkSemantics sp) = true :=
  ⟨rfl, rfl⟩

/-- C4 (amended): a `StructRef` that is bare or wrapped in `Vec` and names a
struct absent from the table makes `check_for_undefined_types` fail with the
undefined-type diagnostic at the field's `type_span` — which the parser sets
to the reference's own token span, as the end-to-end conjunct shows: for
`struct A { x: Vec<Missing> }` the diagnostic spans bytes 18..25, exactly
the `Missing` token.  `Optional`-wrapped references are not checked (see the
counterexample). -/
theorem c4_undefined_ref_diagnostic (contains : String → Bool)
    (pre post : List Field) (f : Field) (n : String)
    (hpre : ∀ g ∈ pre, checkFieldUndefinedType contains g = Res.ok ())
    (hty : f.ty = .strukt n ∨ f.ty = .vec (.strukt n))
    (hn : contains n = false) :
    checkForUndefinedTypes contains (pre ++ f :: post) =
      Res.err ⟨"Semantic error", f.type_span, "Undefined type", none, none⟩ ∧
    (do
      let sp ← parse "struct A \x7b x: Vec<Missing> \x7d"
      checkSemantics sp) =
      Res.err ⟨"Semantic error", ⟨18, 25⟩, "Undefined type", none, none⟩ := by
  refine ⟨?_, rfl⟩
  induction pre with
  | nil =>
    simp only [List.nil_append, checkForUndefinedTypes]
    have hf : checkFieldUndefinedType contains f =
        Res.err ⟨"Semantic error", f.type_span, "Undefined type", none, none⟩ := by
      rcases hty with h | h <;> simp [checkFieldUndefinedType, h, hn]
    rw [hf, Res.bind_err]
  | cons g pre ih =>
    simp only [List.cons_append, checkForUndefinedTypes]
    rw [hpre g (List.mem_cons_self g pre), Res.bind_ok]
    exact ih fun g' hg' => hpre g' (List.mem_cons_of_mem g hg')

/-- Witness for the amended C4 theorem at a concrete input: a single field
`x: Vec<Missing>` with `type_span` 3..10 and the empty table. -/
theorem c4_undefined_ref_diagnostic_witness :
    checkForUndefinedTypes (fun _ => false)
      ([] ++ ⟨"x", [], .vec (.strukt "Missing"), z0, ⟨3, 10⟩⟩ :: []) =
      Res.err ⟨"Semantic error", ⟨3, 10⟩, "Undefined type", none, none⟩ ∧
    (do
      let sp ← parse "struct A \x7b x: Vec<Missing> \x7d"
      checkSemantics sp) =
      Res.err ⟨"Semantic error", ⟨18, 25⟩, "Undefined type", none, none⟩ :=
  c4_undefined_ref_diagnostic (fun _ => false) [] []
    ⟨"x", [], .vec (.strukt "Missing"), z0, ⟨3, 10⟩⟩ "Missing"
    (by simp) (Or.inr rfl) rfl

/-- Fixture: struct `C` with one long-flagged string field `z`. -/
def c5zField : Field := ⟨"z", [⟨.long, some "z", z0⟩], .string, z0, z0⟩

/-- Fixture: struct `C`. -/
def c5C : Struct := ⟨[], [c5zField], "C", z0⟩

/-- Fixture: struct `B` flattens `C` through field `c`. -/
def c5cField : Field := ⟨"c", [⟨.flatten, none, z0⟩], .strukt "C", z0, z0⟩

/-- Fixture: struct `B`. -/
def c5B : Struct := ⟨[], [c5cField], "B", z0⟩

/-- Fixture: struct `A` flattens `B` through field `b`. -/
def c5bField : Field := ⟨"b", [⟨.flatten, none, z0⟩], .strukt "B", z0, z0⟩

/-- Fixture: struct `A`. -/
def c5A : Struct := ⟨[], [c5bField], "A", z0⟩

/-- Fixture: the symbol table for the `A → B → C` flatten chain. -/
def c5tbl : SymTab := mkTable [("A", c5A), ("B", c5B), ("C", c5C)]

/-- The visible-field set as the claim words it: a struct's own fields plus,
for every `Flatten`-attributed field, the fields of the referenced struct
*expanded recursively* — a flattened struct's own `Flatten` fields are
expanded too, to any nesting depth (fuel-bounded). -/
def visibleFieldsClaim (tbl : SymTab) : Nat → List Field → List Field
  | 0, fields => fields
  | fuel + 1, fields =>
    fields ++
      (fields.filterMap fun field =>
        field.attributes.findSome? fun attr =>
          match attr.ty with
          | .flatten =>
            match field.ty with
            | .strukt n => some (visibleFieldsClaim tbl fuel (tblGetFields tbl n))
            | .vec (.strukt n) => some (visibleFieldsClaim tbl fuel (tblGetFields tbl n))
            | _ => none
          | _ => none).flatten

/-- C5 counterexample: with `A` flattening `B` flattening `C`,
`Struct::get_fields` (used by both the help text and `is_option`) yields
only `A`'s field and `B`'s fields — `C`'s field `z` is missing — while the
claim's recursive expansion contains `z`.  The visible set is one level of
flattening, not the recursive expansion. -/
theorem c5_nested_flatten_not_recursive :
    (getFields c5tbl c5A).map Field.name = ["b", "c"] ∧
    "z" ∈ (visibleFieldsClaim c5tbl 9 c5A.fields).map Field.name ∧
    "z" ∉ (getFields c5tbl c5A).map Field.name :=
  ⟨rfl, by decide, by decide⟩

/-- The visible-field set as the amended claim words it: the struct's own
fields plus, for every field carrying a `Flatten` attribute whose type is a
bare or `Vec`-wrapped struct reference, the referenced struct's own fields —
one level only. -/
def visibleFieldsOneLevel (tbl : SymTab) (s : Struct) : List Field :=
  s.fields ++
    (s.fields.flatMap fun field =>
      if field.attributes.any fun a => a.ty = .flatten then
        match field.ty with
        | .strukt n => tblGetFields tbl n
        | .vec (.strukt n) => tblGetFields tbl n
        | _ => []
      else [])

theorem findSome?_flatten_eq (attrs : List Attribute) (t : Option (List Field)) :
    (attrs.findSome? fun attr =>
      match attr.ty with
      | .flatten => t
      | _ => none) =
      if attrs.any (fun a => a.ty = .flatten) then t else none := by
  induction attrs with
  | nil => rfl
  | cons a rest ih =>
    rw [List.findSome?_cons, List.any_cons]
    cases ha : a.ty <;> cases t <;> simp_all

theorem flattenTargetOfType_getD (tbl : SymTab) (ty : FieldType) :
    (flattenTargetOfType tbl ty).getD [] =
      match ty with
      | .strukt n => tblGetFields tbl n
      | .vec (.strukt n) => tblGetFields tbl n
      | _ => [] := by
  cases ty with
  | vec inner => cases inner <;> rfl
  | _ => rfl

theorem filterMap_flatten_eq_flatMap_getD {α β : Type} (g : α → Option (List β)) (l : List α) :
    (l.filterMap g).flatten = l.flatMap fun x => (g x).getD [] := by
  induction l with
  | nil => rfl
  | cons x rest ih =>
    cases hx : g x <;> simp_all [List.filterMap_cons, List.flatMap_cons]

/-- Whether `pat` occurs as a contiguous sublist of a character list. -/
def listContains (pat : List Char) : List Char → Bool
  | [] => pat.isEmpty
  | c :: t => pat.isPrefixOf (c :: t) || listContains pat t

/-- Whether `pat` occurs as a substring of `hay`. -/
def strContains (hay pat : String) : Bool :=
  listContains pat.data hay.data

/-- C5 (amended): for every symbol table and struct, the visible-field set
used by the generated help text and the option-recognition predicate —
`Struct::get_fields` — equals the struct's own fields plus one level of
flattened-in fields; nested `Flatten` fields of a flattened struct are not
expanded further. -/
theorem c5_visible_fields_one_level (tbl : SymTab) (s : Struct) :
    getFields tbl s = visibleFieldsOneLevel tbl s := by
  unfold getFields visibleFieldsOneLevel
  congr 1
  rw [filterMap_flatten_eq_flatMap_getD]
  apply List.flatMap_congr
  intro f _
  rw [findSome?_flatten_eq]
  by_cases h : (f.attributes.any fun a => a.ty = AttributeType.flatten) = true
  · simp only [h, if_true]
    exact flattenTargetOfType_getD tbl f.ty
  · simp [h]

/-- Fixture: `level: f32` with `#[long]`. -/
def fltLevelField : Field := ⟨"level", [⟨.long, some "level", z0⟩], .f32, z0, z0⟩

/-- Fixture: a struct whose only field is `fltLevelField`. -/
def fltLevelStruct : Struct := ⟨[], [fltLevelField], "Args", z0⟩

set_option maxRecDepth 40000 in
/-- C7 counterexample: the claim states that for `f32`/`f64` fields the
generated conversion has no equivalent validation, but
`write_parse_numeric_field` emits the `errno == ERANGE` block and the
`arg_res == 0` invalid-integer block unconditionally, for the float types
exactly as for the integers: the `f32` emission contains both messages, and
at runtime an `f32` field given `abc` exits 1 with the invalid-integer
message. -/
theorem c7_float_has_validation :
    strContains (writeParseNumericField CppSourceBuilder.empty .f32).buffer
      "out of range for integer type" = true ∧
    strContains (writeParseNumericField CppSourceBuilder.empty .f32).buffer
      "is not a valid integer" = true ∧
    runStruct emptyTbl 9 9 fltLevelStruct ["--level", "abc"] =
      RunOutcome.errExit (invalidIntMsg "abc" "--level") :=
  ⟨rfl, rfl, rfl⟩

set_option maxRecDepth 40000 in
/-- C7 (amended): the out-of-range and invalid-integer validation blocks are
emitted for every numeric field type — the whole family i16/u16/i32/u32/
i64/u64/f32/f64, floats included; only the conversion call differs. -/
theorem c7_validation_all_numeric (ty : FieldType)
    (h : ty = .i16 ∨ ty = .u16 ∨ ty = .i32 ∨ ty = .u32 ∨ ty = .i64 ∨ ty = .u64 ∨
      ty = .f32 ∨ ty = .f64) :
    strContains (writeParseNumericField CppSourceBuilder.empty ty).buffer
      "out of range for integer type" = true ∧
    strContains (writeParseNumericField CppSourceBuilder.empty ty).buffer
      "is not a valid integer" = true := by
  rcases h with rfl | rfl | rfl | rfl | rfl | rfl | rfl | rfl <;> exact ⟨rfl, rfl⟩

/-- Witness for the amended C7 theorem at `f64`. -/
theorem c7_validation_all_numeric_witness :
    strContains (writeParseNumericField CppSourceBuilder.empty .f64).buffer
      "out of range for integer type" = true ∧
    strContains (writeParseNumericField CppSourceBuilder.empty .f64).buffer
      "is not a valid integer" = true :=
  c7_validation_all_numeric .f64 (by simp)

theorem assocFind_cons_isSome {α : Type} (p : String × α) (l : List (String × α))
    (k : String) (h : (assocFind l k).isSome) : (assocFind (p :: l) k).isSome := by
  simp only [assocFind, List.find?_cons] at *
  by_cases hp : p.1 = k <;> simp_all

/-- Processing one field's attributes preserves and extends the shorts map:
if `v` was present before, or the field carries a `Short` attribute with
value `v`, then `v` is present afterwards. -/
theorem checkAttrs_shorts_le (f : Field) (attrs : List Attribute) (m m' : AttrMaps)
    (v : String) (h : checkAttrsOfField m f attrs = Res.ok m')
    (hsrc : (assocFind m.shorts v).isSome ∨
      ∃ a ∈ attrs, a.ty = AttributeType.short ∧ a.value = some v) :
    (assocFind m'.shorts v).isSome := by
  induction attrs generalizing m with
  | nil =>
    rcases hsrc with hv | ⟨a, ha, _⟩
    · simp only [checkAttrsOfField, Res.ok.injEq] at h
      subst h; exact hv
    · exact absurd ha (List.not_mem_nil a)
  | cons a rest ih =>
    have hsrc' : (assocFind m.shorts v).isSome ∨
        (a.ty = AttributeType.short ∧ a.value = some v) ∨
        ∃ a' ∈ rest, a'.ty = AttributeType.short ∧ a'.value = some v := by
      rcases hsrc with hv | ⟨a', ha', hp⟩
      · exact Or.inl hv
      · rcases List.mem_cons.mp ha' with rfl | ha''
        · exact Or.inr (Or.inl hp)
        · exact Or.inr (Or.inr ⟨a', ha'', hp⟩)
    clear hsrc
    obtain ⟨ty, value, span⟩ := a
    cases ty with
    | short =>
      cases value with
      | none => simp [checkAttrsOfField] at h
      | some v' =>
        simp only [checkAttrsOfField] at h
        cases hfind : assocFind m.shorts v' with
        | some orig => rw [hfind] at h; simp at h
        | none =>
          rw [hfind] at h
          refine ih _ h ?_
          rcases hsrc' with hv | ⟨_, hval⟩ | hrest
          · exact Or.inl (assocFind_cons_isSome _ _ _ hv)
          · have hv' : v' = v := by injection hval
            subst hv'
            refine Or.inl ?_
            simp [assocFind, List.find?_cons]
          · exact Or.inr hrest
    | long =>
      cases value with
      | none => simp [checkAttrsOfField] at h
      | some v' =>
        simp only [checkAttrsOfField] at h
        by_cases hc : (assocFind m.longs v').isSome ∧ (assocFind m.aliases v').isSome
        · rw [if_pos hc] at h
          cases hfind : assocFind m.longs v' with
          | some orig => rw [hfind] at h; simp at h
          | none => rw [hfind] at h; simp at h
        · rw [if_neg hc] at h
          refine ih _ h ?_
          rcases hsrc' with hv | ⟨hty, _⟩ | hrest
          · exact Or.inl hv
          · exact absurd hty (by simp)
          · exact Or.inr hrest
    | «alias» =>
      cases value with
      | none => simp [checkAttrsOfField] at h
      | some v' =>
        simp only [checkAttrsOfField] at h
        by_cases hc : (assocFind m.aliases v').isSome ∧ (assocFind m.longs v').isSome
        · rw [if_pos hc] at h
          cases hfind : assocFind m.aliases v' with
          | some orig => rw [hfind] at h; simp at h
          | none => rw [hfind] at h; simp at h
        · rw [if_neg hc] at h
          refine ih _ h ?_
          rcases hsrc' with hv | ⟨hty, _⟩ | hrest
          · exact Or.inl hv
          · exact absurd hty (by simp)
          · exact Or.inr hrest
    | flatten =>
      simp only [checkAttrsOfField] at h
      have hnext : checkAttrsOfField m f rest = Res.ok m' := by
        cases hft : f.ty <;> rw [hft] at h
        case vec inner => cases inner <;> first | exact h | simp at h
        all_goals first | exact h | simp at h
      refine ih _ hnext ?_
      rcases hsrc' with hv | ⟨hty, _⟩ | hrest
      · exact Or.inl hv
      · exact absurd hty (by simp)
      · exact Or.inr hrest
    | main => simp [checkAttrsOfField] at h
    | subcommand => simp [checkAttrsOfField] at h

/-- Processing a field that carries a `Short` attribute whose value is
already in the shorts map cannot succeed. -/
theorem checkAttrs_shorts_collision (f : Field) (attrs : List Attribute) (m : AttrMaps)
    (v : String) (hpresent : (assocFind m.shorts v).isSome)
    (hmem : ∃ a ∈ attrs, a.ty = AttributeType.short ∧ a.value = some v) :
    ∀ m', checkAttrsOfField m f attrs ≠ Res.ok m' := by
  induction attrs generalizing m with
  | nil =>
    obtain ⟨a, ha, _⟩ := hmem
    exact absurd ha (List.not_mem_nil a)
  | cons a rest ih =>
    intro m' h
    have hmem' : (a.ty = AttributeType.short ∧ a.value = some v) ∨
        ∃ a' ∈ rest, a'.ty = AttributeType.short ∧ a'.value = some v := by
      obtain ⟨a', ha', hp⟩ := hmem
      rcases List.mem_cons.mp ha' with rfl | ha''
      · exact Or.inl hp
      · exact Or.inr ⟨a', ha'', hp⟩
    clear hmem
    obtain ⟨ty, value, span⟩ := a
    cases ty with
    | short =>
      cases value with
      | none => simp [checkAttrsOfField] at h
      | some v' =>
        simp only [checkAttrsOfField] at h
        cases hfind : assocFind m.shorts v' with
        | some orig => rw [hfind] at h; simp at h
        | none =>
          rw [hfind] at h
          rcases hmem' with ⟨_, hval⟩ | hrest
          · have hv' : v' = v := by injection hval
            subst hv'
            rw [Option.isSome_iff_exists] at hpresent
            obtain ⟨orig, horig⟩ := hpresent
            rw [horig] at hfind
            exact Option.noConfusion hfind
          · exact ih _ (assocFind_cons_isSome _ _ _ hpresent) hrest m' h
    | long =>
      cases value with
      | none => simp [checkAttrsOfField] at h
      | some v' =>
        simp only [checkAttrsOfField] at h
        by_cases hc : (assocFind m.longs v').isSome ∧ (assocFind m.aliases v').isSome
        · rw [if_pos hc] at h
          cases hfind : assocFind m.longs v' with
          | some orig => rw [hfind] at h; simp at h
          | none => rw [hfind] at h; simp at h
        · rw [if_neg hc] at h
          rcases hmem' with ⟨hty, _⟩ | hrest
          · exact absurd hty (by simp)
          · exact ih { m with longs := (v', f) :: m.longs } hpresent hrest m' h
    | «alias» =>
      cases value with
      | none => simp [checkAttrsOfField] at h
      | some v' =>
        simp only [checkAttrsOfField] at h
        by_cases hc : (assocFind m.aliases v').isSome ∧ (assocFind m.longs v').isSome
        · rw [if_pos hc] at h
          cases hfind : assocFind m.aliases v' with
          | some orig => rw [hfind] at h; simp at h
          | none => rw [hfind] at h; simp at h
        · rw [if_neg hc] at h
          rcases hmem' with ⟨hty, _⟩ | hrest
          · exact absurd hty (by simp)
          · exact ih { m with aliases := (v', f) :: m.aliases } hpresent hrest m' h
    | flatten =>
      simp only [checkAttrsOfField] at h
      have hnext : checkAttrsOfField m f rest = Res.ok m' := by
        cases hft : f.ty <;> rw [hft] at h
        case vec inner => cases inner <;> first | exact h | simp at h
        all_goals first | exact h | simp at h
      rcases hmem' with ⟨hty, _⟩ | hrest
      · exact absurd hty (by simp)
      · exact ih m hpresent hrest m' hnext
    | main => simp [checkAttrsOfField] at h
    | subcommand => simp [checkAttrsOfField] at h

/-- If some later field of `l` carries a `Short` attribute whose value is
already present in the shorts map, the field loop cannot succeed. -/
theorem checkGo_shorts_collision (fj : Field) (v : String)
    (hattr : ∃ a ∈ fj.attributes, a.ty = AttributeType.short ∧ a.value = some v) :
    ∀ l : List Field, fj ∈ l →
      ∀ m, (assocFind m.shorts v).isSome → checkFieldAttributesGo m l ≠ Res.ok () := by
  intro l
  induction l with
  | nil => intro hmem; exact absurd hmem (List.not_mem_nil fj)
  | cons g rest ih =>
    intro hmem m hpresent h
    simp only [checkFieldAttributesGo] at h
    cases hc : checkAttrsOfField m g g.attributes with
    | ok m₁ =>
      rw [hc, Res.bind_ok] at h
      rcases List.mem_cons.mp hmem with rfl | hmem'
      · exact checkAttrs_shorts_collision fj fj.attributes m v hpresent hattr m₁ hc
      · exact ih hmem' m₁ (checkAttrs_shorts_le g g.attributes m m₁ v hc (Or.inl hpresent)) h
    | err d => rw [hc, Res.bind_err] at h; exact Res.noConfusion h
    | panicked => rw [hc, Res.bind_panicked] at h; exact Res.noConfusion h
    | fuelOut => rw [hc, Res.bind_fuelOut] at h; exact Res.noConfusion h

/-- Fixture: field `foo` with the auto-derived `#[short]` value `f`. -/
def shortFooField : Field := ⟨"foo", [⟨.short, some "f", z0⟩], .string, z0, z0⟩

/-- Fixture: field `fizz` with the auto-derived `#[short]` value `f`. -/
def shortFizzField : Field := ⟨"fizz", [⟨.short, some "f", z0⟩], .string, z0, z0⟩

/-- C9: two fields of the same struct whose resolved `Short` values are
equal make semantic analysis fail; in the canonical auto-derived scenario of
the spec (`foo` and `fizz` both deriving `-f`) the full pipeline fails with
exactly the short-collision diagnostic (blaming the second `short` attribute
and pointing at the first field), and explicitly overriding one value with
`#[short = b]` makes the whole analysis succeed. -/
theorem c9_short_collision (pre mid post : List Field) (fi fj : Field) (v : String)
    (hi : ∃ a ∈ fi.attributes, a.ty = AttributeType.short ∧ a.value = some v)
    (hj : ∃ a ∈ fj.attributes, a.ty = AttributeType.short ∧ a.value = some v) :
    checkFieldAttributes (pre ++ fi :: mid ++ fj :: post) ≠ Res.ok () ∧
    (do
      let sp ← parse "struct A \x7b #[short] foo: string, #[short] fizz: string \x7d"
      checkSemantics sp) =
      Res.err ⟨"Invalid field attribute usage", ⟨35, 40⟩,
        "There\x27s already a field with the same starting character",
        none, some (⟨20, 23⟩, "Field with same starting letter")⟩ ∧
    Res.isOk (do
      let sp ← parse "struct A \x7b #[short] foo: string, #[short = b] fizz: string \x7d"
      checkSemantics sp) = true := by
  refine ⟨?_, rfl, rfl⟩
  unfold checkFieldAttributes
  suffices hgen : ∀ m : AttrMaps,
      checkFieldAttributesGo m (pre ++ fi :: mid ++ fj :: post) ≠ Res.ok () from hgen _
  induction pre with
  | nil =>
    intro m h
    simp only [List.nil_append, checkFieldAttributesGo] at h
    cases hc : checkAttrsOfField m fi fi.attributes with
    | ok m₁ =>
      rw [hc, Res.bind_ok] at h
      have hpresent : (assocFind m₁.shorts v).isSome :=
        checkAttrs_shorts_le fi fi.attributes m m₁ v hc (Or.inr hi)
      exact checkGo_shorts_collision fj v hj (mid ++ fj :: post)
        (List.mem_append_right mid (List.mem_cons_self fj post)) m₁ hpresent h
    | err d => rw [hc, Res.bind_err] at h; exact Res.noConfusion h
    | panicked => rw [hc, Res.bind_panicked] at h; exact Res.noConfusion h
    | fuelOut => rw [hc, Res.bind_fuelOut] at h; exact Res.noConfusion h
  | cons g pre ih =>
    intro m h
    simp only [List.cons_append, checkFieldAttributesGo] at h
    cases hc : checkAttrsOfField m g g.attributes with
    | ok m₁ => rw [hc, Res.bind_ok] at h; exact ih m₁ h
    | err d => rw [hc, Res.bind_err] at h; exact Res.noConfusion h
    | panicked => rw [hc, Res.bind_panicked] at h; exact Res.noConfusion h
    | fuelOut => rw [hc, Res.bind_fuelOut] at h; exact Res.noConfusion h

/-- Witness for C9 at the concrete auto-derived collision: `foo` and `fizz`
both with short value `f`. -/
theorem c9_short_collision_witness :
    checkFieldAttributes ([] ++ shortFooField :: [] ++ shortFizzField :: []) ≠ Res.ok () ∧
    (do
      let sp ← parse "struct A \x7b #[short] foo: string, #[short] fizz: string \x7d"
      checkSemantics sp) =
      Res.err ⟨"Invalid field attribute usage", ⟨35, 40⟩,
        "There\x27s already a field with the same starting character",
        none, some (⟨20, 23⟩, "Field with same starting letter")⟩ ∧
    Res.isOk (do
      let sp ← parse "struct A \x7b #[short] foo: string, #[short = b] fizz: string \x7d"
      checkSemantics sp) = true :=
  c9_short_collision [] [] [] shortFooField shortFizzField "f" (by decide) (by decide)

/-- C8: the code generator consults the symbol table only through lookups
(`identifier_to_struct[name]`) and iterates structs and fields in
declaration order, so its output is a function of the table's lookup
extension: two association lists that agree as lookup functions — e.g. the
same bindings in different hash-iteration order — generate byte-identical
output for every spec and fuel. -/
theorem c8_codegen_table_order_independent (fuel : Nat) (spec : Spec)
    (t1 t2 : List (String × Struct)) (h : ∀ n, mkTable t1 n = mkTable t2 n) :
    generateCli fuel spec (mkTable t1) = generateCli fuel spec (mkTable t2) := by
  have ht : mkTable t1 = mkTable t2 := funext h
  rw [ht]

/-- Fixture: a two-struct spec for the C8 witness. -/
def c8spec : Spec := ⟨[c5A, c5B], ""⟩

/-- Witness for C8 at a concrete input: the same two bindings in the two
possible orders generate identical output. -/
theorem c8_codegen_table_order_independent_witness :
    generateCli 9 c8spec (mkTable [("A", c5A), ("B", c5B)]) =
      generateCli 9 c8spec (mkTable [("B", c5B), ("A", c5A)]) :=
  c8_codegen_table_order_independent 9 c8spec [("A", c5A), ("B", c5B)]
    [("B", c5B), ("A", c5A)]
    (by
      intro n
      by_cases hA : n = "A"
      · subst hA; rfl
      · by_cases hB : n = "B"
        · subst hB; rfl
        · simp [mkTable, assocFind, List.find?, Ne.symm hA, Ne.symm hB])

/-- The fields from which `compileJobs` emits own branches, walking the same
worklist transformation. -/
def jobsBranchFields (tbl : SymTab) : Nat → List CBJob → List Field
  | 0, _ => []
  | _ + 1, [] => []
  | fuel + 1, .fieldsJob _ [] :: js => jobsBranchFields tbl fuel js
  | fuel + 1, .fieldsJob parents (f :: rest) :: js =>
    let tjobs := (flattenTargets tbl f).map fun tf => CBJob.fieldsJob (parents ++ [f.name]) tf
    let ms := matchesOf f
    let own := if ms.isEmpty then [] else [CBJob.ownJob parents f ms]
    jobsBranchFields tbl fuel (tjobs ++ own ++ CBJob.fieldsJob parents rest :: js)
  | fuel + 1, .ownJob _ f _ :: js => f :: jobsBranchFields tbl fuel js

/-- The fields whose `Short`/`Long`/`Alias` spellings produce branches of a
struct's generated parse loop: the flatten expansion walked by
`write_parse_fields_r`, restricted to fields with a nonempty match buffer. -/
def branchSourceFields (tbl : SymTab) (fuel : Nat) (fields : List Field) : List Field :=
  jobsBranchFields tbl fuel [.fieldsJob ["res"] fields]

/-- Every branch the compiler emits takes its seen-table index from the
mandatory-index lookup of one of the branch-source fields' names. -/
theorem compileJobs_seenIdx (tbl : SymTab) (mIdx : String → Option Nat) :
    ∀ (fuel : Nat) (jobs : List CBJob) (bs : List Branch),
      compileJobs tbl mIdx fuel jobs = some bs →
      ∀ b ∈ bs, ∃ g ∈ jobsBranchFields tbl fuel jobs, b.seenIdx = mIdx g.name := by
  intro fuel
  induction fuel with
  | zero => intro jobs bs h; exact Option.noConfusion h
  | succ fuel ih =>
    intro jobs bs h b hb
    match jobs with
    | [] =>
      simp only [compileJobs, Option.some.injEq] at h
      subst h
      exact absurd hb (List.not_mem_nil b)
    | .fieldsJob parents [] :: js =>
      simp only [compileJobs] at h
      simpa only [jobsBranchFields] using ih js bs h b hb
    | .fieldsJob parents (f :: rest) :: js =>
      simp only [compileJobs] at h
      simpa only [jobsBranchFields] using ih _ bs h b hb
    | .ownJob parents f ms :: js =>
      simp only [compileJobs] at h
      cases hrec : compileJobs tbl mIdx fuel js with
      | none => rw [hrec] at h; exact Option.noConfusion h
      | some bs' =>
        rw [hrec] at h
        simp only [Option.map_some', Option.some.injEq] at h
        subst h
        rcases List.mem_cons.mp hb with rfl | hb'
        · exact ⟨f, List.mem_cons_self f _, rfl⟩
        · obtain ⟨g, hg, hgi⟩ := ih js bs' hrec b hb'
          exact ⟨g, List.mem_cons_of_mem f (by simpa only [jobsBranchFields] using hg), hgi⟩

/-- A successful `mandatory_field_name_to_index` lookup returns an index at
which the mandatory-name list holds exactly the looked-up name. -/
theorem mandatoryFieldIndex_name (s : Struct) (nm : String) (i : Nat)
    (h : mandatoryFieldIndex s nm = some i) :
    ((mandatoryFields s).map Field.name).get? i = some nm := by
  unfold mandatoryFieldIndex at h
  cases hlast : ((((mandatoryFields s).map Field.name).enum.filter
      fun p => p.2 = nm).getLast?) with
  | none => rw [hlast] at h; exact Option.noConfusion h
  | some p =>
    rw [hlast] at h
    simp only [Option.map_some', Option.some.injEq] at h
    subst h
    have hp := List.mem_of_mem_getLast? hlast
    rw [List.mem_filter] at hp
    have hname : p.2 = nm := by simpa using hp.2
    have := List.mem_enum_iff_get?.mp hp.1
    rw [hname] at this
    exact this

/-- A value evaluation never produces the successful-return outcome: nested
struct parses convert their `ok` into a value, and every other shape is
either a value or a propagated exit. -/
theorem runtime_val_never_ok (tbl : SymTab) (cfuel : Nat) :
    ∀ (n : Nat) (hostOpts : List String) (ty : FieldType) (arg : String)
      (toks : List String) (j : List JEntry),
      runtime tbl cfuel n (.onVal hostOpts ty arg toks) ≠ RtRes.out (.ok j) := by
  intro n
  induction n with
  | zero =>
    intro hostOpts ty arg toks j h
    simp [runtime] at h
  | succ n ih =>
    intro hostOpts ty arg toks j h
    cases ty with
    | vec inner =>
      simp only [runtime] at h
      exact ih hostOpts inner arg toks j h
    | bool => exact RtRes.noConfusion h
    | string =>
      simp only [runtime] at h
      cases hp : valPreamble hostOpts true arg toks with
      | error m => rw [hp] at h; exact RtRes.noConfusion h
      | ok p => rw [hp] at h; exact RtRes.noConfusion h
    | i16 => exact RtRes.noConfusion h
    | u16 => exact RtRes.noConfusion h
    | i32 => exact RtRes.noConfusion h
    | u32 => exact RtRes.noConfusion h
    | i64 => exact RtRes.noConfusion h
    | u64 => exact RtRes.noConfusion h
    | f32 => exact RtRes.noConfusion h
    | f64 => exact RtRes.noConfusion h
    | optional inner =>
      simp only [runtime] at h
      split at h
      · exact RtRes.noConfusion h
      · split at h
        · exact RtRes.noConfusion h
        · exact ih _ _ _ _ _ h
    | strukt name =>
      simp only [runtime] at h
      split at h
      · exact RtRes.noConfusion h
      · split at h
        · exact RtRes.noConfusion h
        · rename_i hne
          exact hne j h

theorem mem_missing_of_unseen :
    ∀ (mand : List String) (seen : List Bool) (i : Nat) (nm : String),
      mand.get? i = some nm → seen.get? i = some false →
      nm ∈ (mand.zip seen).filterMap fun p => if p.2 then none else some p.1 := by
  intro mand
  induction mand with
  | nil => intro seen i nm h1 _; simp at h1
  | cons a rest ih =>
    intro seen i nm h1 h2
    cases seen with
    | nil => simp at h2
    | cons sb srest =>
      cases i with
      | zero =>
        simp only [List.get?] at h1 h2
        obtain rfl : a = nm := by injection h1
        obtain rfl : sb = false := by injection h2
        simp [List.filterMap_cons]
      | succ i =>
        have hmem := ih srest i nm (by simpa using h1) (by simpa using h2)
        rw [List.zip_cons_cons, List.filterMap_cons]
        cases sb <;> simp [hmem]

/-- With every branch leaving `fidx` untouched and the seen table false at
`fidx`, the scan loop can never reach the successful-return outcome. -/
theorem runtime_loop_never_ok (tbl : SymTab) (cfuel : Nat) (bs : List Branch)
    (mand : List String) (fidx : Nat)
    (hbs : ∀ b ∈ bs, b.seenIdx ≠ some fidx) :
    ∀ (n : Nat) (hostOpts : List String) (seen : List Bool) (res : List JEntry)
      (toks : List String), seen.length = mand.length → seen.get? fidx = some false →
      ∀ j, runtime tbl cfuel n (.onLoop hostOpts bs mand seen res toks) ≠ RtRes.out (.ok j) := by
  intro n
  induction n with
  | zero =>
    intro hostOpts seen res toks _ _ j h
    simp [runtime] at h
  | succ n ih =>
    intro hostOpts seen res toks hlen hfalse j h
    cases toks with
    | nil =>
      simp only [runtime] at h
      injection h with hj
      obtain ⟨hlt, _⟩ := List.get?_eq_some.mp hfalse
      rw [hlen] at hlt
      have hnm : mand.get? fidx = some (mand.get ⟨fidx, hlt⟩) := List.get?_eq_get hlt
      have hmem := mem_missing_of_unseen mand seen fidx _ hnm hfalse
      unfold finishScan at hj
      rw [if_neg (by simpa using List.ne_nil_of_mem hmem)] at hj
      exact RunOutcome.noConfusion hj
    | cons arg rest =>
      simp only [runtime] at h
      split at h
      · simp at h
      · split at h
        · simp at h
        · rename_i b hfind
          cases hv : runtime tbl cfuel n (.onVal hostOpts b.ty arg rest) with
          | val r =>
            rw [hv] at h
            cases r with
            | ok kv =>
              obtain ⟨k, v⟩ := kv
              have hb : b ∈ bs := List.mem_of_find?_eq_some hfind
              have hidx : b.seenIdx ≠ some fidx := hbs b hb
              refine ih hostOpts (updSeen seen b.seenIdx) _ _ ?_ ?_ j h
              · cases hsi : b.seenIdx with
                | none => simpa [updSeen] using hlen
                | some i => simp only [updSeen, List.length_set]; exact hlen
              · cases hsi : b.seenIdx with
                | none => simpa [updSeen] using hfalse
                | some i =>
                  have hne : i ≠ fidx := fun hcontra => hidx (by rw [hsi, hcontra])
                  simp only [updSeen]
                  rw [List.get?_set_ne true seen hne]
                  exact hfalse
            | error m => simp at h
          | out o =>
            rw [hv] at h
            injection h with ho
            subst ho
            exact runtime_val_never_ok tbl cfuel n hostOpts b.ty arg rest j hv

theorem get?_replicate_of_lt {α : Type} (a : α) (n i : Nat) (h : i < n) :
    (List.replicate n a).get? i = some a := by
  rw [List.get?_eq_some]
  exact ⟨by simpa using h, List.get_replicate a _⟩

theorem filterMap_zip_replicate_false (mand : List String) :
    ((mand.zip (List.replicate mand.length false)).filterMap
      fun p => if p.2 then none else some p.1) = mand := by
  induction mand with
  | nil => rfl
  | cons a rest ih =>
    simp only [List.length_cons, List.replicate_succ, List.zip_cons_cons,
      List.filterMap_cons]
    simpa using ih

/-- Fixture: `Config2` with one long-flagged string field `value`. -/
def c10wValueField : Field := ⟨"value", [⟨.long, some "value", z0⟩], .string, z0, z0⟩

/-- Fixture: struct `Config2`. -/
def c10wConfig : Struct := ⟨[], [c10wValueField], "Config2", z0⟩

/-- Fixture: `Args2`'s field `cfg: Config2` whose only attribute is
`#[flatten]`. -/
def c10wFlatField : Field := ⟨"cfg", [⟨.flatten, none, z0⟩], .strukt "Config2", z0, z0⟩

/-- Fixture: struct `Args2`, flattening `Config2` through its only (and
mandatory) field `cfg`. -/
def c10wArgs : Struct := ⟨[], [c10wFlatField], "Args2", z0⟩

/-- Fixture: the symbol table for the witness scenario. -/
def c10wTbl : SymTab := mkTable [("Config2", c10wConfig), ("Args2", c10wArgs)]

/-- Fixture: the branch list compiled for `Args2`: one branch for the
flattened-in `--value`, marking no seen slot. -/
def c10wBs : List Branch :=
  [⟨["--value"], .string, ["res", "cfg", "value"], false, none⟩]

/-- Fixture: struct `Config` of the counterexample, whose field is *named*
`cfg` like the host's flatten field. -/
def c10cConfig : Struct := ⟨[], [⟨"cfg", [⟨.long, some "cfg", z0⟩], .string, z0, z0⟩], "Config", z0⟩

/-- Fixture: the counterexample host struct `Args`, flattening `Config`
through its flatten-only mandatory field `cfg`. -/
def c10cArgs : Struct := ⟨[], [⟨"cfg", [⟨.flatten, none, z0⟩], .strukt "Config", z0, z0⟩], "Args", z0⟩

/-- Fixture: the counterexample symbol table. -/
def c10cTbl : SymTab := mkTable [("Config", c10cConfig), ("Args", c10cArgs)]

/-- C10 counterexample: the claim says the generated parse procedure of a
struct with a flatten-only bare-StructRef field exits 1 on every invocation.
With the flattened-in field *named like* the flatten field, the nested
branch writes the host's seen slot (`mandatory_fields_seen` is indexed by
name), so `Args { #[flatten] cfg: Config }` with `Config { #[long] cfg }`
parses `--cfg x` successfully; and any such struct's parse exits 0 via
`help()` on `-h`, so even without the name clash not *every* invocation
exits 1. -/
theorem c10_flatten_name_clash_parses :
    mandatoryFieldIndex c10cArgs "cfg" = some 0 ∧
    runStruct c10cTbl 9 9 c10cArgs ["--cfg", "x"] =
      RunOutcome.ok [(["res", "cfg", "cfg"], false, CppVal.str "x")] ∧
    runStruct c10cTbl 9 9 c10cArgs ["-h"] = RunOutcome.helpExit :=
  ⟨rfl, rfl, rfl⟩

/-- C10 (amended): for a field `f` whose only attribute is `Flatten` and
whose type is a bare struct reference, `f` is entered into the generated
parser's mandatory-field table, and — provided no branch-generating field of
the flatten expansion shares `f`'s name — no branch of the generated parse
loop marks its seen slot, no invocation ever returns the populated value,
and the invocation that scans an empty argument list reports every
mandatory field of the struct, `f` among them, and exits 1.  (Invocations
that exit earlier — help, unknown option, a value error, or a nested parse's
own exit — terminate the process before the mandatory check.) -/
theorem c10_flatten_only_field_never_seen (tbl : SymTab) (s : Struct) (f : Field)
    (cfuel fidx : Nat) (bs : List Branch)
    (hmem : f ∈ s.fields)
    (hattrs : ∀ a ∈ f.attributes, a.ty = AttributeType.flatten)
    (hbare : ∃ n, f.ty = FieldType.strukt n)
    (hidx : mandatoryFieldIndex s f.name = some fidx)
    (hcompile : compileBranches tbl (mandatoryFieldIndex s) cfuel s.fields = some bs)
    (hnoclash : ∀ g ∈ branchSourceFields tbl cfuel s.fields, g.name ≠ f.name) :
    (∀ b ∈ bs, b.seenIdx ≠ some fidx) ∧
    (∀ tfuel toks j, runStruct tbl cfuel tfuel s toks ≠ RunOutcome.ok j) ∧
    f.name ∈ (mandatoryFields s).map Field.name ∧
    (∀ tfuel, runStruct tbl cfuel (tfuel + 2) s [] =
      RunOutcome.missingExit ((mandatoryFields s).map Field.name)) := by
  have hfname := mandatoryFieldIndex_name s f.name fidx hidx
  have hlt : fidx < ((mandatoryFields s).map Field.name).length := by
    obtain ⟨hlt, _⟩ := List.get?_eq_some.mp hfname
    exact hlt
  have hnomark : ∀ b ∈ bs, b.seenIdx ≠ some fidx := by
    intro b hb hcontra
    obtain ⟨g, hg, hgi⟩ :=
      compileJobs_seenIdx tbl (mandatoryFieldIndex s) cfuel _ bs hcompile b hb
    have hgidx : mandatoryFieldIndex s g.name = some fidx := by rw [← hgi, hcontra]
    have h1 := mandatoryFieldIndex_name s g.name fidx hgidx
    rw [hfname] at h1
    have : g.name = f.name := by injection h1 with h1; exact h1.symm
    exact hnoclash g hg this
  refine ⟨hnomark, ?_, List.get?_mem hfname, ?_⟩
  · intro tfuel toks j h
    cases tfuel with
    | zero => simp [runStruct, runtime] at h
    | succ n =>
      unfold runStruct at h
      rw [show runtime tbl cfuel (n + 1) (.onStruct s toks) =
          runtime tbl cfuel n (.onLoop (optionStrings tbl s) bs
            ((mandatoryFields s).map Field.name)
            (List.replicate ((mandatoryFields s).map Field.name).length false) [] toks) by
        simp only [runtime, compileBranches] at hcompile ⊢
        rw [hcompile]] at h
      cases hr : runtime tbl cfuel n (.onLoop (optionStrings tbl s) bs
          ((mandatoryFields s).map Field.name)
          (List.replicate ((mandatoryFields s).map Field.name).length false) [] toks) with
      | val r => rw [hr] at h; exact RunOutcome.noConfusion h
      | out o =>
        rw [hr] at h
        subst h
        exact runtime_loop_never_ok tbl cfuel bs ((mandatoryFields s).map Field.name)
          fidx hnomark n (optionStrings tbl s) _ [] toks
          (by rw [List.length_replicate])
          (get?_replicate_of_lt false _ fidx hlt) j hr
  · intro tfuel
    unfold runStruct
    rw [show runtime tbl cfuel (tfuel + 2) (.onStruct s []) =
        runtime tbl cfuel (tfuel + 1) (.onLoop (optionStrings tbl s) bs
          ((mandatoryFields s).map Field.name)
          (List.replicate ((mandatoryFields s).map Field.name).length false) [] []) by
      simp only [runtime, compileBranches] at hcompile ⊢
      rw [hcompile]]
    have hfin : finishScan ((mandatoryFields s).map Field.name)
        (List.replicate ((mandatoryFields s).map Field.name).length false) [] =
        RunOutcome.missingExit ((mandatoryFields s).map Field.name) := by
      unfold finishScan
      rw [filterMap_zip_replicate_false]
      rw [if_neg (by simpa using List.ne_nil_of_mem (List.get?_mem hfname))]
    simp only [runtime, hfin]

/-- Witness for the amended C10 theorem: `Args2 { #[flatten] cfg: Config2 }`
with `Config2 { #[long] value: string }` — no name clash — run on no
arguments reports `cfg` missing. -/
theorem c10_flatten_only_field_never_seen_witness :
    runStruct c10wTbl 9 (7 + 2) c10wArgs [] = RunOutcome.missingExit ["cfg"] :=
  (c10_flatten_only_field_never_seen c10wTbl c10wArgs c10wFlatField 9 0 c10wBs
    (by decide) (by decide) ⟨"Config2", rfl⟩ rfl rfl (by decide)).2.2.2 7

end CliGen
